import Mathlib

/-!
Shallow embedding of the metacalibration core of this repository
(`ngmix/metacal.py` and `ngmix/observation.py`) and proofs about it.

Numeric conventions: numpy float64 values are modelled as exact rationals
(`ℚ`); the only irrational operation the claims touch is `sqrt`, which is
modelled with `Real.sqrt` at the point where the source calls
`numpy.sqrt`.  `numpy.linalg.inv` raises `LinAlgError` on an exactly
singular matrix; this is modelled by returning `none`, and every function
that can hit such an error (or a Python `ZeroDivisionError`) returns an
`Option`, with `none` standing for the raised exception.

File layout: shear-estimator embedding (`get_mean_shear`,
`jackknife_shear`, `bootstrap_shear`) first, then the observation
container (`observation.py`), then the image pipeline (`Metacal`) with its
noise-symmetrization cache, then the theorems that settle the claims.
-/

namespace Ngmix

/-- A 2-vector of rationals, modelling one row of a numpy `[N,2]` array. -/
structure Vec2 where
  x1 : ℚ
  x2 : ℚ
  deriving DecidableEq, Repr

/-- A 2x2 rational matrix, modelling one entry of a numpy `[N,2,2]` array. -/
structure Mat2 where
  a11 : ℚ
  a12 : ℚ
  a21 : ℚ
  a22 : ℚ
  deriving DecidableEq, Repr

instance : Add Vec2 := ⟨fun u v => ⟨u.x1 + v.x1, u.x2 + v.x2⟩⟩

instance : Sub Vec2 := ⟨fun u v => ⟨u.x1 - v.x1, u.x2 - v.x2⟩⟩

instance : Zero Vec2 := ⟨⟨0, 0⟩⟩

instance : Add Mat2 := ⟨fun A B => ⟨A.a11 + B.a11, A.a12 + B.a12, A.a21 + B.a21, A.a22 + B.a22⟩⟩

instance : Sub Mat2 := ⟨fun A B => ⟨A.a11 - B.a11, A.a12 - B.a12, A.a21 - B.a21, A.a22 - B.a22⟩⟩

instance : Zero Mat2 := ⟨⟨0, 0, 0, 0⟩⟩

/-- Scalar multiple of a 2-vector (numpy broadcasting of `arr/n` etc.). -/
def vscale (c : ℚ) (v : Vec2) : Vec2 := ⟨c * v.x1, c * v.x2⟩

/-- Scalar multiple of a 2x2 matrix. -/
def mscale (c : ℚ) (A : Mat2) : Mat2 := ⟨c * A.a11, c * A.a12, c * A.a21, c * A.a22⟩

/-- Sum of a list of 2-vectors, modelling `arr.sum(axis=0)` on an `[N,2]` array. -/
def vsum (l : List Vec2) : Vec2 := l.foldr (· + ·) 0

/-- Sum of a list of 2x2 matrices, modelling `arr.sum(axis=0)` on an `[N,2,2]` array. -/
def msum (l : List Mat2) : Mat2 := l.foldr (· + ·) 0

/-- Determinant of a 2x2 matrix. -/
def det2 (A : Mat2) : ℚ := A.a11 * A.a22 - A.a12 * A.a21

/-- Matrix-vector product, modelling `numpy.dot` of a `[2,2]` with a `[2]`. -/
def matVec (A : Mat2) (v : Vec2) : Vec2 :=
  ⟨A.a11 * v.x1 + A.a12 * v.x2, A.a21 * v.x1 + A.a22 * v.x2⟩

/-- Model of `numpy.linalg.inv` on a 2x2 matrix: the exact inverse, or `none`
(modelling the raised `LinAlgError`) when the matrix is singular. -/
def inv2 (A : Mat2) : Option Mat2 :=
  let d := det2 A
  if d = 0 then none
  else some ⟨A.a22 / d, -A.a12 / d, -A.a21 / d, A.a11 / d⟩

/-- Mean of a list of rationals (`arr.mean()`; division by zero gives the
junk value `0`, which no theorem relies on: claims assume nonempty input). -/
def qmean (l : List ℚ) : ℚ := l.sum / l.length

/-- Population variance of a list of rationals: the square of numpy's
`arr.std()` (default `ddof=0`). -/
def qvar (l : List ℚ) : ℚ := ((l.map (fun x => (x - qmean l) ^ 2)).sum) / l.length

/-- Componentwise mean of an `[N,2]` array (`arr.sum(axis=0)/N`). -/
def vmean (l : List Vec2) : Vec2 := vscale (1 / (l.length : ℚ)) (vsum l)

/-- Mean of an `[N,2,2]` array (`arr.sum(axis=0)/N`). -/
def mmean (l : List Mat2) : Mat2 := mscale (1 / (l.length : ℚ)) (msum l)

/-- Result dictionary of `get_mean_shear` (metacal.py lines 691-706).
`gvar` records the componentwise population variance of `g` — the square of
the `g.std(axis=0)` the source uses for `g_err` — so that the
`sqrt`-valued reported error can be recovered in `get_mean_shear_err`. -/
structure MeanShearRes where
  shear : Vec2
  Rinv : Mat2
  gvar : Vec2
  g_mean : Vec2
  R : Mat2
  Rpsf : Vec2
  psf_corr : Vec2
  g_sum : Vec2
  R_sum : Mat2
  Rpsf_sum : Vec2
  psf_corr_sum : Vec2
  ng : ℕ
  nR : ℕ
  deriving DecidableEq, Repr

/-- Model of `get_mean_shear(g, gpsf, R, Rpsf)` (metacal.py lines 665-706).
Means are sums divided by the leading dimension; `psf_corr_arr` is a copy
of `gpsf` with column 0 (resp. 1) multiplied in place by `Rpsf_mean[0]`
(resp. `[1]`), modelled as a `map`; `linalg.inv(R_mean)` raising on a
singular mean response is the `none` branch.  The `sqrt`-valued
`shear_err = dot(Rinv, g.std(axis=0)/sqrt(N))` is recovered from the
returned fields by `get_mean_shear_err` below. -/
def get_mean_shear (g gpsf : List Vec2) (R : List Mat2) (Rpsf : List Vec2) :
    Option MeanShearRes :=
  let g_sum := vsum g
  let gvar : Vec2 := ⟨qvar (g.map Vec2.x1), qvar (g.map Vec2.x2)⟩
  let g_mean := vscale (1 / (g.length : ℚ)) g_sum
  let R_sum := msum R
  let R_mean := mscale (1 / (R.length : ℚ)) R_sum
  let Rpsf_sum := vsum Rpsf
  let Rpsf_mean := vscale (1 / (Rpsf.length : ℚ)) Rpsf_sum
  let psf_corr_arr := gpsf.map (fun v => (⟨v.x1 * Rpsf_mean.x1, v.x2 * Rpsf_mean.x2⟩ : Vec2))
  let psf_corr_sum := vsum psf_corr_arr
  let psf_corr := vscale (1 / (g.length : ℚ)) psf_corr_sum
  match inv2 R_mean with
  | none => none
  | some Rinv =>
      some { shear := matVec Rinv (g_mean - psf_corr)
             Rinv := Rinv
             gvar := gvar
             g_mean := g_mean
             R := R_mean
             Rpsf := Rpsf_mean
             psf_corr := psf_corr
             g_sum := g_sum
             R_sum := R_sum
             Rpsf_sum := Rpsf_sum
             psf_corr_sum := psf_corr_sum
             ng := g.length
             nR := R.length }

/-- Real matrix-vector product used for the reported errors. -/
noncomputable def matVecR (A : Mat2) (v : ℝ × ℝ) : ℝ × ℝ :=
  ((A.a11 : ℝ) * v.1 + (A.a12 : ℝ) * v.2, (A.a21 : ℝ) * v.1 + (A.a22 : ℝ) * v.2)

/-- The `shear_err = dot(Rinv, g.std(axis=0)/sqrt(g.shape[0]))` of
`get_mean_shear`, assembled from the returned fields: the componentwise
standard deviation is `sqrt` of the population variance. -/
noncomputable def get_mean_shear_err (res : MeanShearRes) : ℝ × ℝ :=
  let e1 : ℝ := Real.sqrt (res.gvar.x1 : ℝ) / Real.sqrt (res.ng : ℝ)
  let e2 : ℝ := Real.sqrt (res.gvar.x2 : ℝ) / Real.sqrt (res.ng : ℝ)
  matVecR res.Rinv (e1, e2)

/-- Spec-side PSF correction: the average over the `N` objects of
`gpsf[i]` multiplied componentwise by `mean(Rpsf)`. -/
def specPsfCorr (gpsf Rpsf : List Vec2) (n : ℕ) : Vec2 :=
  vscale (1 / (n : ℚ))
    (vsum (gpsf.map (fun v => (⟨v.x1 * (vmean Rpsf).x1, v.x2 * (vmean Rpsf).x2⟩ : Vec2))))

/-- Spec-side reported error: `inverse(mean(R)) · (std(g)/sqrt(N))`. -/
noncomputable def specMeanShearErr (g : List Vec2) (Minv : Mat2) : ℝ × ℝ :=
  matVecR Minv
    (Real.sqrt (qvar (g.map Vec2.x1) : ℝ) / Real.sqrt (g.length : ℝ),
     Real.sqrt (qvar (g.map Vec2.x2) : ℝ) / Real.sqrt (g.length : ℝ))

/-- Map a fallible function over a list, failing as soon as one element
fails: the shape of the `for i in xrange(nchunks)` / `for i in
xrange(nboot)` loops, where the first raised exception aborts the whole
call. -/
def optMap (f : α → Option β) : List α → Option (List β)
  | [] => some []
  | a :: as =>
      match f a with
      | none => none
      | some b =>
          match optMap f as with
          | none => none
          | some bs => some (b :: bs)

/-- Python slice `arr[beg:fin]` on the leading axis. -/
def pySlice (l : List α) (beg fin : ℕ) : List α := (l.drop beg).take (fin - beg)

/-- Result dictionary of `jackknife_shear` (metacal.py lines 502-512).
`Rpsf_sum` is only present in the dictionary when `Rpsf` was given. -/
structure JackRes where
  shear : Vec2
  shear_cov : Mat2
  g_sum : Vec2
  R_sum : Mat2
  R_sum_inv : Mat2
  nuse : ℕ
  shears : List Vec2
  Rpsf_sum : Option Vec2
  deriving DecidableEq, Repr

/-- The adjusted global sum of `jackknife_shear`: `g_sum` after the
`g_sum -= Rpsf_sum` step when `Rpsf` is given. -/
def jackknife_gsum (g : List Vec2) (Rpsf : Option (List Vec2)) : Vec2 :=
  match Rpsf with
  | some rp => vsum g - vsum rp
  | none => vsum g

/-- One iteration of the jackknife loop (metacal.py lines 474-492): the
leave-chunk-`i`-out shear, or `none` when `numpy.linalg.inv` raises on the
leave-out response sum. -/
def jackknife_term (g : List Vec2) (R : List Mat2) (Rpsf : Option (List Vec2))
    (chunksize : ℕ) (i : ℕ) : Option Vec2 :=
  let beg := i * chunksize
  let fin := (i + 1) * chunksize
  let g_sum := jackknife_gsum g Rpsf
  let R_sum := msum R
  let tgsum0 := vsum (pySlice g beg fin)
  let tR_sum := msum (pySlice R beg fin)
  let tgsum :=
    match Rpsf with
    | some rp => tgsum0 - vsum (pySlice rp beg fin)
    | none => tgsum0
  (inv2 (R_sum - tR_sum)).map (fun jinv => matVec jinv (g_sum - tgsum))

/-- The covariance assembly shared verbatim by the jackknife and bootstrap
sources: `fac * Σ (shear - shears_i) ⊗ (shear - shears_i)` with the
off-diagonal mirrored. -/
def covFromShears (fac : ℚ) (shear : Vec2) (shears : List Vec2) : Mat2 :=
  let c00 := fac * ((shears.map (fun s => (shear.x1 - s.x1) ^ 2)).sum)
  let c01 := fac * ((shears.map (fun s => (shear.x1 - s.x1) * (shear.x2 - s.x2))).sum)
  let c11 := fac * ((shears.map (fun s => (shear.x2 - s.x2) ^ 2)).sum)
  ⟨c00, c01, c01, c11⟩

/-- Model of `jackknife_shear(g, R, Rpsf=None, chunksize=1)` (metacal.py lines
441-512).  `nchunks = ntot/chunksize` is Python-2 integer division
(truncation); `chunksize = 0` raises `ZeroDivisionError` there, and
`nchunks = 0` raises `ZeroDivisionError` at
`fac = (nchunks-1)/float(nchunks)` — both modelled as `none`, as are the
`LinAlgError`s from `numpy.linalg.inv` on the global or any
leave-one-chunk-out response sum. -/
def jackknife_shear (g : List Vec2) (R : List Mat2) (Rpsf : Option (List Vec2))
    (chunksize : ℕ) : Option JackRes :=
  if chunksize = 0 then none
  else
    let ntot := g.length
    let nchunks := ntot / chunksize
    let R_sum := msum R
    let g_sum := jackknife_gsum g Rpsf
    match inv2 R_sum with
    | none => none
    | some R_sum_inv =>
        let shear := matVec R_sum_inv g_sum
        match optMap (jackknife_term g R Rpsf chunksize) (List.range nchunks) with
        | none => none
        | some shears =>
            if nchunks = 0 then none
            else
              some { shear := shear
                     shear_cov :=
                       covFromShears (((nchunks : ℚ) - 1) / (nchunks : ℚ)) shear shears
                     g_sum := g_sum
                     R_sum := R_sum
                     R_sum_inv := R_sum_inv
                     nuse := g.length
                     shears := shears
                     Rpsf_sum := Rpsf.map vsum }

/-- Fancy indexing `arr[idx, :]` on an `[N,2]` array.  The source only
uses it with indices from `numpy.random.randint(0, N, N)`, so every index
is in range; out-of-range defaults to `0` here and is excluded by
hypothesis in the theorems. -/
def resampleV (l : List Vec2) (idx : List ℕ) : List Vec2 := idx.map (fun j => l.getD j 0)

/-- Fancy indexing `arr[idx, :, :]` on an `[N,2,2]` array. -/
def resampleM (l : List Mat2) (idx : List ℕ) : List Mat2 := idx.map (fun j => l.getD j 0)

/-- Result of `bootstrap_shear` (metacal.py lines 588-663): the
`get_mean_shear` dictionary `base` extended with the bootstrap keys.  The
source overwrites `res['shear_err']` with the square root of the
covariance diagonal; that value is `bootstrap_shear_err` below. -/
structure BootRes where
  base : MeanShearRes
  shear_mean : Vec2
  shear_cov : Mat2
  shears : List Vec2
  deriving DecidableEq, Repr

/-- One bootstrap iteration (metacal.py lines 630-646): `get_mean_shear`
on the arrays resampled with this iteration's two index draws, recording
the shear; `none` when the resampled mean response is singular. -/
def bootstrap_term (g gpsf : List Vec2) (R : List Mat2) (Rpsf : List Vec2)
    (g_rind R_rind : ℕ → List ℕ) (i : ℕ) : Option Vec2 :=
  (get_mean_shear (resampleV g (g_rind i)) (resampleV gpsf (g_rind i))
      (resampleM R (R_rind i)) (resampleV Rpsf (R_rind i))).map MeanShearRes.shear

/-- Model of `bootstrap_shear(g, gpsf, R, Rpsf, nboot)` (metacal.py lines 588-663).
The two `numpy.random.randint` streams are oracle parameters: `g_rind i`
models the with-replacement index set drawn for `(g, gpsf)` at iteration
`i`, and `R_rind i` the independent one drawn for `(R, Rpsf)`.  At
`nboot = 1` the source raises `ZeroDivisionError` at
`fac = 1.0/(nboot-1.0)`, modelled as `none`; the `nboot = 0` corner (numpy
`mean` of an empty array is `nan`) is outside every claim and the model
returns the empty-sum value there. -/
def bootstrap_shear (g gpsf : List Vec2) (R : List Mat2) (Rpsf : List Vec2)
    (nboot : ℕ) (g_rind R_rind : ℕ → List ℕ) : Option BootRes :=
  match get_mean_shear g gpsf R Rpsf with
  | none => none
  | some res =>
      match optMap (bootstrap_term g gpsf R Rpsf g_rind R_rind) (List.range nboot) with
      | none => none
      | some shears =>
          if nboot = 1 then none
          else
            some { base := res
                   shear_mean := vmean shears
                   shear_cov := covFromShears (1 / ((nboot : ℚ) - 1)) res.shear shears
                   shears := shears }

/-- The final reported bootstrap error: `sqrt(diag(shear_cov))`. -/
noncomputable def bootstrap_shear_err (b : BootRes) : ℝ × ℝ :=
  (Real.sqrt (b.shear_cov.a11 : ℝ), Real.sqrt (b.shear_cov.a22 : ℝ))

/-- Spec-side sample covariance (divisor `n-1`, centered at the sample
mean) of the first components of a list of shear vectors. -/
def sampleCov00 (shears : List Vec2) : ℚ :=
  ((shears.map (fun s => (s.x1 - (vmean shears).x1) ^ 2)).sum) / ((shears.length : ℚ) - 1)

/-- A numpy 2d `float64` array, reduced to its shape and flattened
contents (`numpy.ascontiguousarray` is the identity here; the `len(shape)
== 2` assertions of the setters hold by construction of this type). -/
structure NDArray where
  rows : ℕ
  cols : ℕ
  data : List ℚ
  deriving DecidableEq, Repr

/-- Model of `arr.shape`. -/
def NDArray.shape (a : NDArray) : ℕ × ℕ := (a.rows, a.cols)

/-- Model of `numpy.zeros(image.shape) + 1.0`, the default weight map. -/
def onesLike (a : NDArray) : NDArray := ⟨a.rows, a.cols, List.replicate (a.rows * a.cols) 1⟩

/-- The `Observation` container (observation.py lines 12-615): image,
weight, and the optional per-pixel `bmask`/`ormask`/`noise` arrays (whose
presence the source tracks by attribute existence), plus the optional
nested PSF observation.  The jacobian, gmix and metadata fields are not
modelled: no claim mentions them and they carry no per-pixel shape
constraint. -/
inductive Observation where
  | mk (image weight : NDArray) (bmask ormask noise : Option NDArray)
      (psf : Option Observation)

/-- The `image` attribute. -/
def Observation.image : Observation → NDArray
  | .mk i _ _ _ _ _ => i

/-- The `weight` attribute. -/
def Observation.weight : Observation → NDArray
  | .mk _ w _ _ _ _ => w

/-- The `bmask` attribute (`none` when `has_bmask()` is false). -/
def Observation.bmask : Observation → Option NDArray
  | .mk _ _ b _ _ _ => b

/-- The `ormask` attribute (`none` when `has_ormask()` is false). -/
def Observation.ormask : Observation → Option NDArray
  | .mk _ _ _ o _ _ => o

/-- The `noise` attribute (`none` when `has_noise()` is false). -/
def Observation.noise : Observation → Option NDArray
  | .mk _ _ _ _ n _ => n

/-- The `psf` attribute (`none` when `has_psf()` is false). -/
def Observation.psf : Observation → Option Observation
  | .mk _ _ _ _ _ p => p

/-- Model of `set_image` on an already-constructed observation (observation.py
lines 234-264): the new image must have the same shape as the old one, or
the assertion fails (`none`). -/
def set_image (o : Observation) (image : NDArray) : Option Observation :=
  if image.shape = o.image.shape then
    some (.mk image o.weight o.bmask o.ormask o.noise o.psf)
  else none

/-- Model of `set_weight` (observation.py lines 266-289): a given weight must match
the image shape; `None` installs the uniform map of ones. -/
def set_weight (o : Observation) (weight : Option NDArray) : Option Observation :=
  match weight with
  | some w =>
      if w.shape = o.image.shape then
        some (.mk o.image w o.bmask o.ormask o.noise o.psf)
      else none
  | none => some (.mk o.image (onesLike o.image) o.bmask o.ormask o.noise o.psf)

/-- Model of `set_bmask` (observation.py lines 291-313): `None` deletes the
attribute, otherwise the array must match the image shape. -/
def set_bmask (o : Observation) (bmask : Option NDArray) : Option Observation :=
  match bmask with
  | none => some (.mk o.image o.weight none o.ormask o.noise o.psf)
  | some b =>
      if b.shape = o.image.shape then
        some (.mk o.image o.weight (some b) o.ormask o.noise o.psf)
      else none

/-- Model of `set_ormask` (observation.py lines 324-346). -/
def set_ormask (o : Observation) (ormask : Option NDArray) : Option Observation :=
  match ormask with
  | none => some (.mk o.image o.weight o.bmask none o.noise o.psf)
  | some b =>
      if b.shape = o.image.shape then
        some (.mk o.image o.weight o.bmask (some b) o.noise o.psf)
      else none

/-- Model of `set_noise` (observation.py lines 357-379). -/
def set_noise (o : Observation) (noise : Option NDArray) : Option Observation :=
  match noise with
  | none => some (.mk o.image o.weight o.bmask o.ormask none o.psf)
  | some b =>
      if b.shape = o.image.shape then
        some (.mk o.image o.weight o.bmask o.ormask (some b) o.psf)
      else none

/-- Model of `set_psf` (observation.py lines 419-429): no shape constraint. -/
def set_psf (o : Observation) (psf : Option Observation) : Observation :=
  .mk o.image o.weight o.bmask o.ormask o.noise psf

/-- Model of `Observation.__init__` (observation.py lines 39-71): the first
`set_image` has no previous image to compare against, then the optional
arrays are installed through the same checked setters. -/
def observation_init (image : NDArray) (weight bmask ormask noise : Option NDArray)
    (psf : Option Observation) : Option Observation :=
  let o0 : Observation := .mk image (onesLike image) none none none none
  (set_weight o0 weight).bind fun o1 =>
  (set_bmask o1 bmask).bind fun o2 =>
  (set_ormask o2 ormask).bind fun o3 =>
  (set_noise o3 noise).map fun o4 =>
  set_psf o4 psf

/-- One public mutation of an already-constructed observation, for claim
C10's "any sequence of operations". -/
inductive ObsOp where
  | opSetImage (a : NDArray)
  | opSetWeight (a : Option NDArray)
  | opSetBmask (a : Option NDArray)
  | opSetOrmask (a : Option NDArray)
  | opSetNoise (a : Option NDArray)
  deriving DecidableEq

/-- Run one setter. -/
def applyObsOp (o : Observation) : ObsOp → Option Observation
  | .opSetImage a => set_image o a
  | .opSetWeight a => set_weight o a
  | .opSetBmask a => set_bmask o a
  | .opSetOrmask a => set_ormask o a
  | .opSetNoise a => set_noise o a

/-- Run a sequence of setters, stopping at the first assertion failure. -/
def applyObsOps (o : Observation) : List ObsOp → Option Observation
  | [] => some o
  | op :: ops => (applyObsOp o op).bind fun o2 => applyObsOps o2 ops

/-- The shape invariant: every per-pixel array present shares the image's
shape. -/
def shapesOk (o : Observation) : Prop :=
  o.weight.shape = o.image.shape ∧
  (∀ b ∈ o.bmask, b.shape = o.image.shape) ∧
  (∀ b ∈ o.ormask, b.shape = o.image.shape) ∧
  (∀ b ∈ o.noise, b.shape = o.image.shape)

/-- Model of `ngmix.Shape`: a reduced-shear pair.  The `_check_shape` type
assertion of the source is enforced by this type. -/
structure Shape where
  g1 : ℚ
  g2 : ℚ
  deriving DecidableEq, Repr

/-- Symbolic galsim surface-brightness profile: the image-resampling
collaborator is external (spec section 2), so its operations are modelled
as constructors and claims about them are claims about the operation tree
the pipeline builds. -/
inductive GSProfile where
  | interpolatedImage (img : NDArray)
  | pixel (scale : ℚ)
  | deconvolve (p : GSProfile)
  | convolve (p q : GSProfile)
  | dilate (p : GSProfile) (factor : ℚ)
  | shearProf (p : GSProfile) (g1 g2 : ℚ)
  deriving DecidableEq, Repr

/-- Symbolic galsim pixel image: either a profile drawn onto a grid
(`drawImage` with `method='no_pixel'` at a given scale), or a previously
drawn image with a pixel noise field added in place (`image += ...`,
whitening, or `symmetrizeNoise`). -/
inductive GSImage where
  | draw (prof : GSProfile) (bounds : ℕ × ℕ) (scale : ℚ)
  | plusNoise (base : GSImage) (d : NDArray)
  deriving DecidableEq, Repr

/-- Model of `image.array.shape` of a symbolic image. -/
def GSImage.dims : GSImage → ℕ × ℕ
  | .draw _ b _ => b
  | .plusNoise i _ => i.dims

/-- Model of `numpy.median` of a flat array: middle of the sorted values, averaging
the two middle ones for even length. -/
def npMedian (l : List ℚ) : ℚ :=
  let s := l.mergeSort (fun a b => decide (a ≤ b))
  let n := s.length
  if n % 2 = 1 then s.getD (n / 2) 0
  else (s.getD (n / 2 - 1) 0 + s.getD (n / 2) 0) / 2

/-- The `Metacal` pipeline object after `_set_data` (metacal.py lines
68-79 and 324-401).  `pixel_scale` is `gs_wcs.maxLinearScale()`, a value
computed by the external wcs collaborator from the jacobian, and is
carried as a constructor argument; `med_var = 1/median(weight)` is only
set when whitening or symmetrization is requested, and `med_err =
sqrt(med_var)` is only ever consumed inside the collaborator-drawn noise
realization (an oracle in this model), so the variance is stored. -/
structure Metacal where
  obs : Observation
  psfObs : Observation
  whiten : Bool
  symmetrize : Bool
  same_seed : Bool
  pixel_scale : ℚ
  med_var : Option ℚ

/-- Model of `Metacal.__init__` / `_set_data`: fails (ValueError) when the input
observation has no PSF observation set. -/
def metacal_init (obs : Observation) (pixel_scale : ℚ)
    (whiten symmetrize same_seed : Bool) : Option Metacal :=
  match obs.psf with
  | none => none
  | some p =>
      some { obs := obs
             psfObs := p
             whiten := whiten
             symmetrize := symmetrize
             same_seed := same_seed
             pixel_scale := pixel_scale
             med_var :=
               if whiten || symmetrize then some (1 / npMedian obs.weight.data)
               else none }

/-- Model of `self.pixel`. -/
def Metacal.pixelProf (m : Metacal) : GSProfile := .pixel m.pixel_scale

/-- Model of `self.pixel_inv = galsim.Deconvolve(self.pixel)`. -/
def Metacal.pixel_inv (m : Metacal) : GSProfile := .deconvolve (.pixel m.pixel_scale)

/-- Model of `self.gs_psf_int`: the interpolated PSF image. -/
def Metacal.gs_psf_int (m : Metacal) : GSProfile := .interpolatedImage m.psfObs.image

/-- Model of `self.gs_psf_int_nopix = Convolve([gs_psf_int, pixel_inv])`: the PSF
model deconvolved from the pixel kernel. -/
def Metacal.gs_psf_int_nopix (m : Metacal) : GSProfile :=
  .convolve m.gs_psf_int m.pixel_inv

/-- Model of `self.gs_psf_int_inv = Deconvolve(gs_psf_int)`. -/
def Metacal.gs_psf_int_inv (m : Metacal) : GSProfile := .deconvolve m.gs_psf_int

/-- Model of `self.gs_image_int`: the interpolated galaxy image. -/
def Metacal.gs_image_int (m : Metacal) : GSProfile := .interpolatedImage m.obs.image

/-- Model of `self.gs_image_int_nopsf = Convolve(gs_image_int, gs_psf_int_inv)`. -/
def Metacal.gs_image_int_nopsf (m : Metacal) : GSProfile :=
  .convolve m.gs_image_int m.gs_psf_int_inv

/-- The two mode strings accepted by `get_target_psf` at its call sites:
`'gal_shear'` and `'psf_shear'`. -/
inductive PsfTargetMode where
  | galShear
  | psfShear
  deriving DecidableEq, Repr

/-- Model of `Metacal.get_target_psf(shear, type)` (metacal.py lines 164-202):
dilate the pixel-deconvolved PSF by `1 + 2*max([|g1|, |g2|])`, reconvolve
with the pixel, shear the result only in psf_shear mode, and draw onto the
original PSF image's bounds at the native pixel scale. -/
def get_target_psf (m : Metacal) (sh : Shape) (mode : PsfTargetMode) :
    GSImage × GSProfile :=
  let g1abs := |sh.g1|
  let g2abs := |sh.g2|
  let psf_grown_nopix := GSProfile.dilate m.gs_psf_int_nopix (1 + 2 * max g1abs g2abs)
  let psf_grown_interp0 := GSProfile.convolve psf_grown_nopix m.pixelProf
  let psf_grown_interp :=
    match mode with
    | .psfShear => GSProfile.shearProf psf_grown_interp0 sh.g1 sh.g2
    | .galShear => psf_grown_interp0
  (GSImage.draw psf_grown_interp m.psfObs.image.shape m.pixel_scale, psf_grown_interp)

/-- Model of `get_sheared_image_interp_nopsf` (metacal.py lines 306-322). -/
def get_sheared_image_interp_nopsf (m : Metacal) (sh : Shape) : GSProfile :=
  .shearProf m.gs_image_int_nopsf sh.g1 sh.g2

/-- Model of `Metacal.get_target_image(psf_interp, shear)` (metacal.py lines
204-245).  The whitening branch adds the whitening field the collaborator
computes (oracle argument `wnoise`).  The trailing `if self.symmetrize:`
at line 243 has an empty body: in Python that is an `IndentationError`, so
the module as committed cannot even be imported; this model embeds the
function's evident reading with the empty conditional removed (a leftover
of an unfinished edit), which is the reading every claim about this file
was written against. -/
def get_target_image (m : Metacal) (psf_interp : GSProfile) (sh : Option Shape)
    (wnoise : NDArray) : GSImage :=
  let shim_interp_nopsf :=
    match sh with
    | some s => get_sheared_image_interp_nopsf m s
    | none => m.gs_image_int_nopsf
  let imconv := GSProfile.convolve shim_interp_nopsf psf_interp
  let newim := GSImage.draw imconv m.obs.image.shape m.pixel_scale
  if m.whiten then GSImage.plusNoise newim wnoise else newim

/-- The two type strings passed to `_symmetrize_noise`: `'gal'` and
`'psf'`. -/
inductive SymType where
  | gal
  | psf
  deriving DecidableEq, Repr

/-- Model of `Metacal._get_symmetrize_shapes` (metacal.py lines 290-304): returns
`(g1, g2, g1psf, g2psf)`. -/
def get_symmetrize_shapes (ty : SymType) (sh : Option Shape) : ℚ × ℚ × ℚ × ℚ :=
  match ty with
  | .gal =>
      match sh with
      | none => (0, 0, 0, 0)
      | some s => (s.g1, s.g2, 0, 0)
  | .psf =>
      match sh with
      | none => (0, 0, 0, 0)
      | some s => (0, 0, s.g1, s.g2)

/-- Model of the numeric value denoted by Python-2 `str()` of a float
(`'%s'` formatting, equivalent to `'%.12g'`): the input rounded to 12
significant decimal digits.  The rendered string is determined by this
rounded value (the `%g` notation and trailing-zero stripping depend only
on it), so two finite components produce the same string exactly when
their `strKey12` values coincide — in particular distinct floats agreeing
to 12 significant digits collide.  Exact decimal halfway values round
half-up here where C `printf` rounds the exact binary value half-even; no
claim distinguishes the two, and every float64 is one of these
rationals. -/
def strKey12 (q : ℚ) : ℚ :=
  if q = 0 then 0
  else
    let e : ℤ := Int.log 10 |q|
    let m : ℤ := round (|q| / (10 : ℚ) ^ (e - 11))
    (if q < 0 then -1 else 1) * (m : ℚ) * (10 : ℚ) ^ (e - 11)

/-- Model of `Metacal._get_symmetrize_key` (metacal.py lines 286-288): the
source formats `(nrow, ncol, g1, g2, g1psf, g2psf)` into a space-separated
string with `'%s'`.  The two grid sizes are ints, rendered exactly; the
four shear components are floats, rendered by Python-2 `str` to 12
significant digits (`strKey12`).  The components contain no spaces and
their positions are fixed, so two requests share the string key exactly
when they share this six-component list. -/
def get_symmetrize_key (g1 g2 g1psf g2psf : ℚ) (nrow ncol : ℕ) : List ℚ :=
  [(nrow : ℚ), (ncol : ℚ), strKey12 g1, strKey12 g2, strKey12 g1psf, strKey12 g2psf]

/-- The class-level `Metacal.sym_cache` dictionary, shared across
instances for the process lifetime. -/
abbrev SymCache := List (List ℚ × NDArray)

/-- Dictionary lookup `key in Metacal.sym_cache` / `sym_cache[key]`. -/
def cacheLookup : SymCache → List ℚ → Option NDArray
  | [], _ => none
  | e :: es, k => if e.1 = k then some e.2 else cacheLookup es k

/-- Model of `Metacal._symmetrize_noise` (metacal.py lines 247-284).  On a
hit the cached `noise_diff` is added to a copy of the input image and the
cache is left unchanged.  On a miss the source's first statement is
`GN = galsim.GaussianNoise(sigma=self.med_err)` (line 263), but `galsim`
is not bound in this function's scope — the module never imports it at top
level and, unlike every other method that uses it, `_symmetrize_noise`
has no local `import galsim` — so the name lookup raises `NameError`
before anything is computed: the miss branch always fails (`none`) and
never computes or stores a noise field. -/
def symmetrize_noise (_self : Metacal) (cache : SymCache) (ty : SymType)
    (image_in : GSImage) (_psf_target_interp : GSProfile) (sh : Option Shape) :
    Option (GSImage × SymCache) :=
  let (nrow, ncol) := image_in.dims
  let (g1, g2, g1psf, g2psf) := get_symmetrize_shapes ty sh
  let key := get_symmetrize_key g1 g2 g1psf g2psf nrow ncol
  match cacheLookup cache key with
  | some d => some (GSImage.plusNoise image_in d, cache)
  | none => none

/-- The Observation built by `Metacal._make_obs` (metacal.py lines
422-435): the drawn image and drawn PSF image with the original weight map
(the jacobian is passed along unchanged and not modelled). -/
structure MObs where
  image : GSImage
  psf_image : GSImage
  weight : NDArray
  deriving DecidableEq, Repr

/-- Model of `Metacal._make_obs`. -/
def make_obs (m : Metacal) (im psf_im : GSImage) : MObs :=
  { image := im, psf_image := psf_im, weight := m.obs.weight }

/-- Model of `Metacal.get_obs_galshear(shear, get_unsheared)` (metacal.py lines
81-116), threading the shared `sym_cache` explicitly.  `wnoise1`/`wnoise2`
are the whitening oracle fields for the two `get_target_image` calls.
Note the unsheared branch calls `_symmetrize_noise` without an
`if self.symmetrize` guard, exactly as the source does. -/
def get_obs_galshear (m : Metacal) (cache : SymCache) (sh : Shape)
    (get_unsheared : Bool) (wnoise1 wnoise2 : NDArray) :
    Option ((MObs × Option MObs) × SymCache) :=
  let tp := get_target_psf m sh .galShear
  let newpsf := tp.1
  let newpsf_interp := tp.2
  let sheared_image0 := get_target_image m newpsf_interp (some sh) wnoise1
  let step1 : Option (GSImage × SymCache) :=
    if m.symmetrize then
      symmetrize_noise m cache .gal sheared_image0 newpsf_interp (some sh)
    else some (sheared_image0, cache)
  match step1 with
  | none => none
  | some (sheared_image, c1) =>
      let newobs := make_obs m sheared_image newpsf
      if get_unsheared then
        let unsheared_image0 := get_target_image m newpsf_interp none wnoise2
        match symmetrize_noise m c1 .gal unsheared_image0 newpsf_interp
            (some ⟨0, 0⟩) with
        | none => none
        | some (unsheared_image, c2) =>
            some ((newobs, some (make_obs m unsheared_image newpsf)), c2)
      else some ((newobs, none), c1)

/-! Auxiliary definitions used only to state and prove the theorems. -/

instance : Neg Vec2 := ⟨fun v => ⟨-v.x1, -v.x2⟩⟩

instance : Neg Mat2 := ⟨fun A => ⟨-A.a11, -A.a12, -A.a21, -A.a22⟩⟩

instance : AddCommGroup Vec2 where
  add := (· + ·)
  zero := 0
  neg := (- ·)
  sub := (· - ·)
  nsmul := nsmulRec
  zsmul := zsmulRec
  add_assoc := fun ⟨a1, a2⟩ ⟨b1, b2⟩ ⟨c1, c2⟩ =>
    congrArg₂ Vec2.mk (add_assoc a1 b1 c1) (add_assoc a2 b2 c2)
  zero_add := fun ⟨a1, a2⟩ => congrArg₂ Vec2.mk (zero_add a1) (zero_add a2)
  add_zero := fun ⟨a1, a2⟩ => congrArg₂ Vec2.mk (add_zero a1) (add_zero a2)
  add_comm := fun ⟨a1, a2⟩ ⟨b1, b2⟩ => congrArg₂ Vec2.mk (add_comm a1 b1) (add_comm a2 b2)
  neg_add_cancel := fun ⟨a1, a2⟩ => congrArg₂ Vec2.mk (neg_add_cancel a1) (neg_add_cancel a2)
  sub_eq_add_neg := fun ⟨a1, a2⟩ ⟨b1, b2⟩ =>
    congrArg₂ Vec2.mk (sub_eq_add_neg a1 b1) (sub_eq_add_neg a2 b2)

instance : AddCommGroup Mat2 where
  add := (· + ·)
  zero := 0
  neg := (- ·)
  sub := (· - ·)
  nsmul := nsmulRec
  zsmul := zsmulRec
  add_assoc := fun ⟨a1, a2, a3, a4⟩ ⟨b1, b2, b3, b4⟩ ⟨c1, c2, c3, c4⟩ => by
    show Mat2.mk ((a1 + b1) + c1) ((a2 + b2) + c2) ((a3 + b3) + c3) ((a4 + b4) + c4)
        = Mat2.mk (a1 + (b1 + c1)) (a2 + (b2 + c2)) (a3 + (b3 + c3)) (a4 + (b4 + c4))
    rw [add_assoc, add_assoc, add_assoc, add_assoc]
  zero_add := fun ⟨a1, a2, a3, a4⟩ => by
    show Mat2.mk (0 + a1) (0 + a2) (0 + a3) (0 + a4) = Mat2.mk a1 a2 a3 a4
    rw [zero_add, zero_add, zero_add, zero_add]
  add_zero := fun ⟨a1, a2, a3, a4⟩ => by
    show Mat2.mk (a1 + 0) (a2 + 0) (a3 + 0) (a4 + 0) = Mat2.mk a1 a2 a3 a4
    rw [add_zero, add_zero, add_zero, add_zero]
  add_comm := fun ⟨a1, a2, a3, a4⟩ ⟨b1, b2, b3, b4⟩ => by
    show Mat2.mk (a1 + b1) (a2 + b2) (a3 + b3) (a4 + b4)
        = Mat2.mk (b1 + a1) (b2 + a2) (b3 + a3) (b4 + a4)
    rw [add_comm a1, add_comm a2, add_comm a3, add_comm a4]
  neg_add_cancel := fun ⟨a1, a2, a3, a4⟩ => by
    show Mat2.mk (-a1 + a1) (-a2 + a2) (-a3 + a3) (-a4 + a4) = Mat2.mk 0 0 0 0
    rw [neg_add_cancel, neg_add_cancel, neg_add_cancel, neg_add_cancel]
  sub_eq_add_neg := fun ⟨a1, a2, a3, a4⟩ ⟨b1, b2, b3, b4⟩ => by
    show Mat2.mk (a1 - b1) (a2 - b2) (a3 - b3) (a4 - b4)
        = Mat2.mk (a1 + -b1) (a2 + -b2) (a3 + -b3) (a4 + -b4)
    rw [sub_eq_add_neg a1, sub_eq_add_neg a2, sub_eq_add_neg a3, sub_eq_add_neg a4]

/-- Spec-side leave-one-chunk-out view: the ensemble with the contiguous
chunk occupying positions `[i*c, (i+1)*c)` removed, keeping the original
order — in particular any trailing remainder stays included. -/
def removeChunk (l : List α) (i c : ℕ) : List α :=
  l.take (i * c) ++ l.drop ((i + 1) * c)

/-- All `dilate` nodes of a profile tree, each with the profile it
dilates and its factor. -/
def dilations : GSProfile → List (GSProfile × ℚ)
  | .interpolatedImage _ => []
  | .pixel _ => []
  | .deconvolve p => dilations p
  | .convolve p q => dilations p ++ dilations q
  | .dilate p f => (p, f) :: dilations p
  | .shearProf p _ _ => dilations p

/-- All shear applications in a profile tree, outermost first. -/
def shearsOf : GSProfile → List (ℚ × ℚ)
  | .interpolatedImage _ => []
  | .pixel _ => []
  | .deconvolve p => shearsOf p
  | .convolve p q => shearsOf p ++ shearsOf q
  | .dilate p _ => shearsOf p
  | .shearProf p g1 g2 => (g1, g2) :: shearsOf p

/-- The cache key `_symmetrize_noise` computes for a request: the
symmetrize shapes of `(type, shear)` plus the image grid size. -/
def symKeyOf (ty : SymType) (sh : Option Shape) (img : GSImage) : List ℚ :=
  let s := get_symmetrize_shapes ty sh
  get_symmetrize_key s.1 s.2.1 s.2.2.1 s.2.2.2 img.dims.1 img.dims.2

/-- Example PSF observation for the pipeline theorems. -/
def psfObsEx : Observation :=
  .mk ⟨2, 2, [1, 0, 0, 0]⟩ ⟨2, 2, [1, 1, 1, 1]⟩ none none none none

/-- Example observation with a PSF set, uniform unit weight. -/
def obsEx : Observation :=
  .mk ⟨2, 2, [1, 2, 3, 4]⟩ ⟨2, 2, [1, 1, 1, 1]⟩ none none none (some psfObsEx)

/-- Model of `Metacal(obsEx)` with all options off: neither whitening nor
symmetrization, so `med_var` is never assigned. -/
def mcExNoSym : Metacal := ⟨obsEx, psfObsEx, false, false, false, 1, none⟩

/-- Model of `Metacal(obsEx, symmetrize=True)`. -/
def mcExSym : Metacal := ⟨obsEx, psfObsEx, false, true, false, 1, some 1⟩

/-- Example oracle noise fields for the pipeline theorems. -/
def nzEx1 : NDArray := ⟨2, 2, [1, 1, 0, 0]⟩

def nzEx2 : NDArray := ⟨2, 2, [0, 0, 1, 1]⟩

def nzEx3 : NDArray := ⟨2, 2, [1, 2, 3, 4]⟩

def nzEx4 : NDArray := ⟨2, 2, [5, 6, 7, 8]⟩

/-- Example drawn image for the cache theorems. -/
def imgEx : GSImage := .draw (.pixel 1) (2, 2) 1

/-! Supporting lemmas. -/

theorem inv2_eq_none_of_det {A : Mat2} (h : det2 A = 0) : inv2 A = none := by
  simp [inv2, h]

theorem inv2_isSome_of_det {A : Mat2} (h : det2 A ≠ 0) : ∃ B, inv2 A = some B :=
  ⟨⟨A.a22 / det2 A, -A.a12 / det2 A, -A.a21 / det2 A, A.a11 / det2 A⟩, by simp [inv2, h]⟩

theorem vsum_nil : vsum [] = 0 := rfl

theorem vsum_cons (v : Vec2) (l : List Vec2) : vsum (v :: l) = v + vsum l := rfl

theorem vsum_append (l1 l2 : List Vec2) : vsum (l1 ++ l2) = vsum l1 + vsum l2 := by
  induction l1 with
  | nil => rw [List.nil_append, vsum_nil, zero_add]
  | cons a t ih => rw [List.cons_append, vsum_cons, vsum_cons, ih, add_assoc]

theorem msum_nil : msum [] = 0 := rfl

theorem msum_cons (A : Mat2) (l : List Mat2) : msum (A :: l) = A + msum l := rfl

theorem msum_append (l1 l2 : List Mat2) : msum (l1 ++ l2) = msum l1 + msum l2 := by
  induction l1 with
  | nil => rw [List.nil_append, msum_nil, zero_add]
  | cons a t ih => rw [List.cons_append, msum_cons, msum_cons, ih, add_assoc]

theorem vsum_replicate (n : ℕ) (v : Vec2) :
    vsum (List.replicate n v) = ⟨n * v.x1, n * v.x2⟩ := by
  induction n with
  | zero => refine congrArg₂ Vec2.mk ?_ ?_ <;> (push_cast; ring)
  | succ k ih =>
      rw [List.replicate_succ, vsum_cons, ih]
      refine congrArg₂ Vec2.mk ?_ ?_ <;> (push_cast; ring)

theorem slice_append_drop (l : List α) {b e : ℕ} (h : b ≤ e) :
    pySlice l b e ++ l.drop e = l.drop b := by
  have h3 := List.take_append_drop (e - b) (l.drop b)
  rw [List.drop_drop] at h3
  rw [pySlice]
  rw [show b + (e - b) = e from by omega] at h3
  exact h3

theorem take_slice_drop (l : List α) {b e : ℕ} (h : b ≤ e) :
    l.take b ++ (pySlice l b e ++ l.drop e) = l := by
  rw [slice_append_drop l h, List.take_append_drop]

theorem msum_replicate (n : ℕ) (A : Mat2) :
    msum (List.replicate n A) = ⟨n * A.a11, n * A.a12, n * A.a21, n * A.a22⟩ := by
  induction n with
  | zero =>
      show Mat2.mk 0 0 0 0 = _
      rw [show ((0 : ℕ) : ℚ) * A.a11 = 0 from by ring, show ((0 : ℕ) : ℚ) * A.a12 = 0 from by ring,
        show ((0 : ℕ) : ℚ) * A.a21 = 0 from by ring, show ((0 : ℕ) : ℚ) * A.a22 = 0 from by ring]
  | succ k ih =>
      rw [List.replicate_succ, msum_cons, ih]
      show Mat2.mk (A.a11 + k * A.a11) (A.a12 + k * A.a12) (A.a21 + k * A.a21) (A.a22 + k * A.a22) = _
      rw [show A.a11 + (k : ℚ) * A.a11 = ((k + 1 : ℕ) : ℚ) * A.a11 from by push_cast; ring,
        show A.a12 + (k : ℚ) * A.a12 = ((k + 1 : ℕ) : ℚ) * A.a12 from by push_cast; ring,
        show A.a21 + (k : ℚ) * A.a21 = ((k + 1 : ℕ) : ℚ) * A.a21 from by push_cast; ring,
        show A.a22 + (k : ℚ) * A.a22 = ((k + 1 : ℕ) : ℚ) * A.a22 from by push_cast; ring]

/-- The leave-out view of a global-minus-chunk vector sum: what the source
computes as `g_sum - g[beg:end].sum(axis=0)` is the sum over everything
outside the chunk, trailing remainder included. -/
theorem vsum_sub_slice (l : List Vec2) {b e : ℕ} (h : b ≤ e) :
    vsum l - vsum (pySlice l b e) = vsum (l.take b ++ l.drop e) := by
  have hd : vsum l = vsum (l.take b) + (vsum (pySlice l b e) + vsum (l.drop e)) := by
    conv_lhs => rw [← take_slice_drop l h]
    rw [vsum_append, vsum_append]
  rw [hd, vsum_append]
  abel

theorem msum_sub_slice (l : List Mat2) {b e : ℕ} (h : b ≤ e) :
    msum l - msum (pySlice l b e) = msum (l.take b ++ l.drop e) := by
  have hd : msum l = msum (l.take b) + (msum (pySlice l b e) + msum (l.drop e)) := by
    conv_lhs => rw [← take_slice_drop l h]
    rw [msum_append, msum_append]
  rw [hd, msum_append]
  abel

theorem vsum_sub_chunk (l : List Vec2) (i c : ℕ) :
    vsum l - vsum (pySlice l (i * c) ((i + 1) * c)) = vsum (removeChunk l i c) :=
  vsum_sub_slice l (Nat.mul_le_mul_right c (Nat.le_succ i))

theorem msum_sub_chunk (l : List Mat2) (i c : ℕ) :
    msum l - msum (pySlice l (i * c) ((i + 1) * c)) = msum (removeChunk l i c) :=
  msum_sub_slice l (Nat.mul_le_mul_right c (Nat.le_succ i))

theorem qmean_replicate {n : ℕ} (hn : n ≠ 0) (x : ℚ) :
    qmean (List.replicate n x) = x := by
  rw [qmean, List.sum_replicate, List.length_replicate, nsmul_eq_mul,
    mul_div_cancel_left₀ _ (by exact_mod_cast hn : (n : ℚ) ≠ 0)]

theorem qvar_replicate {n : ℕ} (hn : n ≠ 0) (x : ℚ) :
    qvar (List.replicate n x) = 0 := by
  rw [qvar, qmean_replicate hn, List.map_replicate]
  rw [show (x - x) ^ 2 = 0 from by ring, List.sum_replicate, List.length_replicate]
  simp

theorem optMap_length {f : α → Option β} {l : List α} {res : List β}
    (h : optMap f l = some res) : res.length = l.length := by
  induction l generalizing res with
  | nil =>
      simp only [optMap] at h
      cases h
      rfl
  | cons a t ih =>
      simp only [optMap] at h
      split at h
      · exact Option.noConfusion h
      next b hfa =>
        split at h
        · exact Option.noConfusion h
        next bs hmt =>
          cases h
          simp [ih hmt]

theorem optMap_get {f : α → Option β} {l : List α} {res : List β}
    (h : optMap f l = some res) :
    ∀ i (h1 : i < l.length) (h2 : i < res.length),
      f (l.get ⟨i, h1⟩) = some (res.get ⟨i, h2⟩) := by
  induction l generalizing res with
  | nil => intro i h1 h2; exact absurd h1 (by simp)
  | cons a t ih =>
      simp only [optMap] at h
      split at h
      · exact Option.noConfusion h
      next b hfa =>
        split at h
        · exact Option.noConfusion h
        next bs hmt =>
          cases h
          intro i h1 h2
          cases i with
          | zero => simpa using hfa
          | succ k =>
              exact ih hmt k (by simpa using h1) (by simpa using h2)

theorem optMap_eq_none {f : α → Option β} {l : List α} {a : α}
    (ha : a ∈ l) (hf : f a = none) : optMap f l = none := by
  induction l with
  | nil => cases ha
  | cons b t ih =>
      rcases List.mem_cons.mp ha with h | h
      · subst h
        simp [optMap, hf]
      · cases hfb : f b with
        | none => simp [optMap, hfb]
        | some v => simp [optMap, hfb, ih h]

theorem vec2_add_mk (a b c d : ℚ) : (⟨a, b⟩ : Vec2) + ⟨c, d⟩ = ⟨a + c, b + d⟩ := rfl

theorem vec2_sub_mk (a b c d : ℚ) : (⟨a, b⟩ : Vec2) - ⟨c, d⟩ = ⟨a - c, b - d⟩ := rfl

theorem vec2_zero_mk : (0 : Vec2) = ⟨0, 0⟩ := rfl

theorem mat2_add_mk (a b c d e f g h : ℚ) :
    (⟨a, b, c, d⟩ : Mat2) + ⟨e, f, g, h⟩ = ⟨a + e, b + f, c + g, d + h⟩ := rfl

theorem mat2_sub_mk (a b c d e f g h : ℚ) :
    (⟨a, b, c, d⟩ : Mat2) - ⟨e, f, g, h⟩ = ⟨a - e, b - f, c - g, d - h⟩ := rfl

theorem mat2_zero_mk : (0 : Mat2) = ⟨0, 0, 0, 0⟩ := rfl

theorem Vec2.zero_x1 : (0 : Vec2).x1 = 0 := rfl

theorem Vec2.zero_x2 : (0 : Vec2).x2 = 0 := rfl

theorem Mat2.zero_a11 : (0 : Mat2).a11 = 0 := rfl

theorem Mat2.zero_a12 : (0 : Mat2).a12 = 0 := rfl

theorem Mat2.zero_a21 : (0 : Mat2).a21 = 0 := rfl

theorem Mat2.zero_a22 : (0 : Mat2).a22 = 0 := rfl

/-- Evaluation of `get_mean_shear` when the mean response is invertible:
the result written with the spec-side means. -/
theorem get_mean_shear_eq_some (g gpsf : List Vec2) (R : List Mat2) (Rpsf : List Vec2)
    {Minv : Mat2} (hinv : inv2 (mmean R) = some Minv) :
    get_mean_shear g gpsf R Rpsf = some
      { shear := matVec Minv (vmean g - specPsfCorr gpsf Rpsf g.length)
        Rinv := Minv
        gvar := ⟨qvar (g.map Vec2.x1), qvar (g.map Vec2.x2)⟩
        g_mean := vmean g
        R := mmean R
        Rpsf := vmean Rpsf
        psf_corr := specPsfCorr gpsf Rpsf g.length
        g_sum := vsum g
        R_sum := msum R
        Rpsf_sum := vsum Rpsf
        psf_corr_sum :=
          vsum (gpsf.map fun v => ⟨v.x1 * (vmean Rpsf).x1, v.x2 * (vmean Rpsf).x2⟩)
        ng := g.length
        nR := R.length } := by
  rw [mmean] at hinv
  simp only [get_mean_shear, hinv]
  rfl

/-- Destructor for a successful `jackknife_shear` call. -/
theorem jackknife_shear_some {g : List Vec2} {R : List Mat2} {Rpsf : Option (List Vec2)}
    {c : ℕ} {res : JackRes} (h : jackknife_shear g R Rpsf c = some res) :
    ∃ Rinv shears,
      c ≠ 0 ∧ g.length / c ≠ 0 ∧
      inv2 (msum R) = some Rinv ∧
      optMap (jackknife_term g R Rpsf c) (List.range (g.length / c)) = some shears ∧
      res = { shear := matVec Rinv (jackknife_gsum g Rpsf)
              shear_cov :=
                covFromShears ((((g.length / c : ℕ) : ℚ) - 1) / ((g.length / c : ℕ) : ℚ))
                  (matVec Rinv (jackknife_gsum g Rpsf)) shears
              g_sum := jackknife_gsum g Rpsf
              R_sum := msum R
              R_sum_inv := Rinv
              nuse := g.length
              shears := shears
              Rpsf_sum := Rpsf.map vsum } := by
  simp only [jackknife_shear] at h
  split at h
  · exact Option.noConfusion h
  next hc =>
    split at h
    · exact Option.noConfusion h
    next Rinv hinv =>
      split at h
      · exact Option.noConfusion h
      next shears hloop =>
        split at h
        · exact Option.noConfusion h
        next hn =>
          cases h
          exact ⟨Rinv, shears, hc, hn, hinv, hloop, rfl⟩

/-- Destructor for a successful `bootstrap_shear` call. -/
theorem bootstrap_shear_some {g gpsf : List Vec2} {R : List Mat2} {Rpsf : List Vec2}
    {nboot : ℕ} {g_rind R_rind : ℕ → List ℕ} {b : BootRes}
    (h : bootstrap_shear g gpsf R Rpsf nboot g_rind R_rind = some b) :
    ∃ res shears,
      get_mean_shear g gpsf R Rpsf = some res ∧
      optMap (bootstrap_term g gpsf R Rpsf g_rind R_rind) (List.range nboot) = some shears ∧
      nboot ≠ 1 ∧
      b = { base := res
            shear_mean := vmean shears
            shear_cov := covFromShears (1 / ((nboot : ℚ) - 1)) res.shear shears
            shears := shears } := by
  simp only [bootstrap_shear] at h
  split at h
  · exact Option.noConfusion h
  next res hres =>
    split at h
    · exact Option.noConfusion h
    next shears hloop =>
      split at h
      · exact Option.noConfusion h
      next hn1 =>
        cases h
        exact ⟨res, shears, hres, hloop, hn1, rfl⟩

/-! Claim theorems. -/

/-- Claim C1: for every measurement ensemble with nonsingular mean response,
`get_mean_shear` returns `shear = inverse(mean(R)) . (mean(g) - psf_corr)`
with `psf_corr` the average over the objects of `gpsf[i]` times
`mean(Rpsf)` componentwise, and `shear_err = inverse(mean(R)) .
(std(g)/sqrt(N))`; in particular 100 rows of `g = [0.01, 0]` with identity
responses and zero PSF responses give `shear = [0.01, 0]` and
`shear_err = [0, 0]`. -/
theorem C1_get_mean_shear_formula :
    (∀ (g gpsf : List Vec2) (R : List Mat2) (Rpsf : List Vec2),
        det2 (mmean R) ≠ 0 →
        ∃ res Minv,
          get_mean_shear g gpsf R Rpsf = some res ∧
          inv2 (mmean R) = some Minv ∧
          res.shear = matVec Minv (vmean g - specPsfCorr gpsf Rpsf g.length) ∧
          get_mean_shear_err res = specMeanShearErr g Minv) ∧
    (∃ res,
        get_mean_shear (List.replicate 100 ⟨1/100, 0⟩) (List.replicate 100 ⟨0, 0⟩)
            (List.replicate 100 ⟨1, 0, 0, 1⟩) (List.replicate 100 ⟨0, 0⟩) = some res ∧
        res.shear = ⟨1/100, 0⟩ ∧
        get_mean_shear_err res = (0, 0)) := by
  constructor
  · intro g gpsf R Rpsf hdet
    obtain ⟨Minv, hinv⟩ := inv2_isSome_of_det hdet
    exact ⟨_, Minv, get_mean_shear_eq_some g gpsf R Rpsf hinv, hinv, rfl, rfl⟩
  · have hmm : mmean (List.replicate 100 (⟨1, 0, 0, 1⟩ : Mat2)) = ⟨1, 0, 0, 1⟩ := by
      rw [mmean, msum_replicate]
      norm_num [mscale]
    have hinv : inv2 (mmean (List.replicate 100 (⟨1, 0, 0, 1⟩ : Mat2)))
        = some ⟨1, 0, 0, 1⟩ := by
      rw [hmm]
      norm_num [inv2, det2]
    refine ⟨_, get_mean_shear_eq_some _ _ _ _ hinv, ?_, ?_⟩
    · show matVec ⟨1, 0, 0, 1⟩ _ = _
      norm_num [vmean, vsum_replicate, specPsfCorr, vscale, matVec, List.map_replicate,
        vec2_sub_mk]
    · show get_mean_shear_err _ = ((0 : ℝ), (0 : ℝ))
      norm_num [get_mean_shear_err, matVecR, List.map_replicate, qvar_replicate]

/-- Witness for C1: the formula instantiated at a one-object ensemble with the
identity response. -/
theorem C1_witness :
    ∃ res Minv,
      get_mean_shear [⟨2, 0⟩] [⟨0, 0⟩] [⟨1, 0, 0, 1⟩] [⟨0, 0⟩] = some res ∧
      inv2 (mmean [⟨1, 0, 0, 1⟩]) = some Minv ∧
      res.shear = matVec Minv (vmean [⟨2, 0⟩] - specPsfCorr [⟨0, 0⟩] [⟨0, 0⟩] 1) ∧
      get_mean_shear_err res = specMeanShearErr [⟨2, 0⟩] Minv :=
  C1_get_mean_shear_formula.1 _ _ _ _
    (by norm_num [mmean, msum_cons, msum_nil, mscale, det2])

/-- Claim C2: `jackknife_shear` partitions the ensemble into `N/c` (integer
truncation) contiguous chunks `[i*c, (i+1)*c)` in original order; the
remainder is excluded from the leave-out loop but kept in the global sums
(each leave-out estimate sums over everything outside its chunk), and the
global estimate is `inverse(sum R) . (sum g - sum Rpsf)`, the `Rpsf` term
absent when `Rpsf` is `None`. -/
theorem C2_jackknife_chunking :
    ∀ (g : List Vec2) (R : List Mat2) (Rpsf : Option (List Vec2)) (c : ℕ) (res : JackRes),
      jackknife_shear g R Rpsf c = some res →
      res.shears.length = g.length / c ∧
      (∃ Minv, inv2 (msum R) = some Minv ∧
        res.shear = matVec Minv (vsum g -
          (match Rpsf with | some rp => vsum rp | none => 0))) ∧
      (∀ i (hi : i < res.shears.length),
        ∃ Jinv, inv2 (msum (removeChunk R i c)) = some Jinv ∧
          res.shears.get ⟨i, hi⟩ =
            matVec Jinv (vsum (removeChunk g i c) -
              (match Rpsf with | some rp => vsum (removeChunk rp i c) | none => 0))) := by
  intro g R Rpsf c res h
  obtain ⟨Rinv, shears, hc, hn, hinv, hloop, hres⟩ := jackknife_shear_some h
  subst hres
  have hlen : shears.length = g.length / c := by
    rw [optMap_length hloop, List.length_range]
  refine ⟨hlen, ⟨Rinv, hinv, ?_⟩, ?_⟩
  · cases Rpsf with
    | none => simp [jackknife_gsum]
    | some rp => simp [jackknife_gsum]
  · intro i hi
    have hi2 : i < (List.range (g.length / c)).length := by
      rw [List.length_range, ← hlen]
      exact hi
    have hterm := optMap_get hloop i hi2 hi
    rw [List.get_range] at hterm
    simp only [jackknife_term] at hterm
    rcases Option.map_eq_some'.mp hterm with ⟨Jinv, hJ, hs⟩
    rw [msum_sub_chunk] at hJ
    refine ⟨Jinv, hJ, ?_⟩
    rw [← hs]
    congr 1
    cases Rpsf with
    | none =>
        show jackknife_gsum g none - vsum (pySlice g (i * c) ((i + 1) * c)) = _
        simp only [jackknife_gsum]
        rw [vsum_sub_chunk, sub_zero]
    | some rp =>
        show jackknife_gsum g (some rp) -
            (vsum (pySlice g (i * c) ((i + 1) * c)) -
              vsum (pySlice rp (i * c) ((i + 1) * c))) = _
        simp only [jackknife_gsum]
        rw [← vsum_sub_chunk g i c, ← vsum_sub_chunk rp i c]
        abel

/-- Witness for C2: a two-object ensemble with identity responses and
chunksize 1. -/
theorem C2_witness :
    ∃ res, jackknife_shear [⟨1, 0⟩, ⟨1, 0⟩] (List.replicate 2 ⟨1, 0, 0, 1⟩) none 1 = some res ∧
      res.shears.length = 2 ∧
      (∃ Minv, inv2 (msum (List.replicate 2 ⟨1, 0, 0, 1⟩)) = some Minv ∧
        res.shear = matVec Minv (vsum [⟨1, 0⟩, ⟨1, 0⟩] - 0)) := by
  have hrange : List.range 2 = [0, 1] := by decide
  have hs : (jackknife_shear [⟨1, 0⟩, ⟨1, 0⟩] (List.replicate 2 ⟨1, 0, 0, 1⟩) none 1).isSome
      = true := by
    norm_num [jackknife_shear, jackknife_term, jackknife_gsum, hrange, optMap, pySlice,
      vsum_cons, vsum_nil, msum_cons, msum_nil, inv2, det2, matVec, covFromShears,
      vec2_sub_mk, mat2_sub_mk, vec2_add_mk, mat2_add_mk, vec2_zero_mk, mat2_zero_mk,
      List.replicate]
  have h := (Option.some_get hs).symm
  obtain ⟨hlen, ⟨Minv, hMinv, hshear⟩, _⟩ :=
    C2_jackknife_chunking _ _ _ _ _ h
  exact ⟨_, h, hlen, Minv, hMinv, hshear⟩

/-- Claim C9: both diagonal entries of the jackknife covariance are nonnegative
for every accepted input ensemble. -/
theorem C9_jackknife_cov_nonneg :
    ∀ (g : List Vec2) (R : List Mat2) (Rpsf : Option (List Vec2)) (c : ℕ) (res : JackRes),
      jackknife_shear g R Rpsf c = some res →
      0 ≤ res.shear_cov.a11 ∧ 0 ≤ res.shear_cov.a22 := by
  intro g R Rpsf c res h
  obtain ⟨Rinv, shears, hc, hn, hinv, hloop, hres⟩ := jackknife_shear_some h
  subst hres
  have h1 : (1 : ℚ) ≤ ((g.length / c : ℕ) : ℚ) := by
    exact_mod_cast Nat.one_le_iff_ne_zero.mpr hn
  have hfac : 0 ≤ (((g.length / c : ℕ) : ℚ) - 1) / ((g.length / c : ℕ) : ℚ) := by
    apply div_nonneg <;> linarith
  constructor
  · show 0 ≤ (covFromShears _ _ _).a11
    simp only [covFromShears]
    apply mul_nonneg hfac
    apply List.sum_nonneg
    intro x hx
    obtain ⟨s, _, rfl⟩ := List.mem_map.mp hx
    positivity
  · show 0 ≤ (covFromShears _ _ _).a22
    simp only [covFromShears]
    apply mul_nonneg hfac
    apply List.sum_nonneg
    intro x hx
    obtain ⟨s, _, rfl⟩ := List.mem_map.mp hx
    positivity

/-- Witness for C9: the covariance diagonal at a concrete two-object
ensemble. -/
theorem C9_witness :
    ∃ res, jackknife_shear [⟨2, 0⟩, ⟨2, 0⟩] (List.replicate 2 ⟨1, 0, 0, 1⟩) none 1 = some res ∧
      0 ≤ res.shear_cov.a11 ∧ 0 ≤ res.shear_cov.a22 := by
  have hrange : List.range 2 = [0, 1] := by decide
  have hs : (jackknife_shear [⟨2, 0⟩, ⟨2, 0⟩] (List.replicate 2 ⟨1, 0, 0, 1⟩) none 1).isSome
      = true := by
    norm_num [jackknife_shear, jackknife_term, jackknife_gsum, hrange, optMap, pySlice,
      vsum_cons, vsum_nil, msum_cons, msum_nil, inv2, det2, matVec, covFromShears,
      vec2_sub_mk, mat2_sub_mk, vec2_add_mk, mat2_add_mk, vec2_zero_mk, mat2_zero_mk,
      List.replicate]
  have h := (Option.some_get hs).symm
  exact ⟨_, h, C9_jackknife_cov_nonneg _ _ _ _ _ h⟩

/-- Model of `get_mean_shear` fails when the mean response is singular. -/
theorem get_mean_shear_eq_none {g gpsf : List Vec2} {R : List Mat2} {Rpsf : List Vec2}
    (hd : det2 (mmean R) = 0) : get_mean_shear g gpsf R Rpsf = none := by
  have h0 : inv2 (mscale (1 / (R.length : ℚ)) (msum R)) = none := by
    rw [← mmean]
    exact inv2_eq_none_of_det hd
  simp only [one_div] at h0
  simp [get_mean_shear, h0]

/-- Claim C8: a singular response sum — the global or any leave-one-chunk-out
sum in `jackknife_shear`, or the mean response in `get_mean_shear`,
directly or inside any bootstrap resample — makes the call fail (the
`LinAlgError` is propagated, never handled into a default value); in
particular an all-zero response ensemble fails. -/
theorem C8_singular_raises :
    (∀ (g gpsf : List Vec2) (R : List Mat2) (Rpsf : List Vec2),
        det2 (mmean R) = 0 → get_mean_shear g gpsf R Rpsf = none) ∧
    (∀ (g : List Vec2) (R : List Mat2) (Rpsf : Option (List Vec2)) (c : ℕ),
        det2 (msum R) = 0 → jackknife_shear g R Rpsf c = none) ∧
    (∀ (g : List Vec2) (R : List Mat2) (Rpsf : Option (List Vec2)) (c i : ℕ),
        i < g.length / c → det2 (msum (removeChunk R i c)) = 0 →
        jackknife_shear g R Rpsf c = none) ∧
    (∀ (g gpsf : List Vec2) (R : List Mat2) (Rpsf : List Vec2) (nboot : ℕ)
        (g_rind R_rind : ℕ → List ℕ),
        (det2 (mmean R) = 0 ∨
          ∃ i, i < nboot ∧ det2 (mmean (resampleM R (R_rind i))) = 0) →
        bootstrap_shear g gpsf R Rpsf nboot g_rind R_rind = none) ∧
    (jackknife_shear [⟨1, 0⟩, ⟨2, 0⟩] (List.replicate 2 (0 : Mat2)) none 1 = none ∧
      get_mean_shear [⟨1, 0⟩, ⟨2, 0⟩] [⟨0, 0⟩, ⟨0, 0⟩] (List.replicate 2 (0 : Mat2))
        [⟨0, 0⟩, ⟨0, 0⟩] = none) := by
  have hjackGlobal : ∀ (g : List Vec2) (R : List Mat2) (Rpsf : Option (List Vec2)) (c : ℕ),
      det2 (msum R) = 0 → jackknife_shear g R Rpsf c = none := by
    intro g R Rpsf c hd
    rw [jackknife_shear]
    split
    · rfl
    · simp [inv2_eq_none_of_det hd]
  refine ⟨fun g gpsf R Rpsf hd => get_mean_shear_eq_none hd, hjackGlobal, ?_, ?_, ?_, ?_⟩
  · intro g R Rpsf c i hi hd
    have hterm : jackknife_term g R Rpsf c i = none := by
      simp only [jackknife_term]
      rw [msum_sub_chunk, inv2_eq_none_of_det hd]
      rfl
    have hloop : optMap (jackknife_term g R Rpsf c) (List.range (g.length / c)) = none :=
      optMap_eq_none (List.mem_range.mpr hi) hterm
    rw [jackknife_shear]
    split
    · rfl
    · cases hinv : inv2 (msum R) with
      | none => simp [hinv]
      | some Rinv => simp [hinv, hloop]
  · intro g gpsf R Rpsf nboot g_rind R_rind hcase
    rcases hcase with hd | ⟨i, hi, hd⟩
    · simp [bootstrap_shear, get_mean_shear_eq_none hd]
    · have hterm : bootstrap_term g gpsf R Rpsf g_rind R_rind i = none := by
        simp only [bootstrap_term]
        rw [get_mean_shear_eq_none hd]
        rfl
      have hloop : optMap (bootstrap_term g gpsf R Rpsf g_rind R_rind)
          (List.range nboot) = none :=
        optMap_eq_none (List.mem_range.mpr hi) hterm
      cases h0 : get_mean_shear g gpsf R Rpsf with
      | none => simp [bootstrap_shear, h0]
      | some res => simp [bootstrap_shear, h0, hloop]
  · apply hjackGlobal
    norm_num [msum_replicate, det2, Mat2.zero_a11, Mat2.zero_a12, Mat2.zero_a21, Mat2.zero_a22]
  · apply get_mean_shear_eq_none
    norm_num [mmean, msum_replicate, mscale, det2, Mat2.zero_a11, Mat2.zero_a12,
      Mat2.zero_a21, Mat2.zero_a22]

/-- Witness for C8: a singular one-object response makes `get_mean_shear`
fail. -/
theorem C8_witness :
    get_mean_shear [⟨1, 1⟩] [⟨0, 0⟩] [⟨1, 1, 1, 1⟩] [⟨0, 0⟩] = none :=
  C8_singular_raises.1 _ _ _ _
    (by norm_num [mmean, msum_cons, msum_nil, mscale, det2])

/-- Counterexample for C3: `bootstrap_shear` does not report the sample
covariance of the recorded shear vectors.  With `g = [[0,0],[1,0]]`,
identity responses, `nboot = 2` and both iterations drawing the index set
`[0,0]` for the shapes, the two recorded shears are both `[0,0]`, whose
sample covariance (divisor `nboot-1`, centered at their mean) is `0`;
the source instead reports `1/2`, because it centers the deviations at
the non-resampled point estimate `[1/2, 0]`. -/
theorem C3_counterexample :
    (bootstrap_shear [⟨0, 0⟩, ⟨1, 0⟩] [⟨0, 0⟩, ⟨0, 0⟩] [⟨1, 0, 0, 1⟩, ⟨1, 0, 0, 1⟩]
        [⟨0, 0⟩, ⟨0, 0⟩] 2 (fun _ => [0, 0]) (fun _ => [0, 1])).map
      (fun b => (b.shear_cov.a11, sampleCov00 b.shears)) = some (1/2, 0) ∧
    ((1 : ℚ)/2) ≠ (0 : ℚ) := by
  constructor
  · have hrange : List.range 2 = [0, 1] := by decide
    norm_num [bootstrap_shear, bootstrap_term, get_mean_shear, resampleV, resampleM,
      optMap, hrange, vsum_cons, vsum_nil, msum_cons, msum_nil, qvar, qmean, inv2, det2,
      matVec, vscale, mscale, covFromShears, vmean, sampleCov00, List.getD,
      vec2_sub_mk, vec2_add_mk, vec2_zero_mk, mat2_sub_mk, mat2_add_mk, mat2_zero_mk,
      Vec2.zero_x1, Vec2.zero_x2]
  · norm_num

/-- Claim C3 amended: `bootstrap_shear` computes the non-resampled point
estimate first, then `nboot` times recomputes `get_mean_shear` on arrays
resampled with one index set shared by `(g, gpsf)` and an independent one
shared by `(R, Rpsf)`; the reported covariance uses divisor `nboot - 1`
but centers the deviations at the non-resampled point estimate (not at
the sample mean of the recorded vectors), and the reported error is the
square root of the covariance diagonal. -/
theorem C3_amended_bootstrap :
    ∀ (g gpsf : List Vec2) (R : List Mat2) (Rpsf : List Vec2) (nboot : ℕ)
      (g_rind R_rind : ℕ → List ℕ) (b : BootRes),
      bootstrap_shear g gpsf R Rpsf nboot g_rind R_rind = some b →
      get_mean_shear g gpsf R Rpsf = some b.base ∧
      b.shears.length = nboot ∧
      (∀ i (hi : i < b.shears.length),
        ∃ r, get_mean_shear (resampleV g (g_rind i)) (resampleV gpsf (g_rind i))
            (resampleM R (R_rind i)) (resampleV Rpsf (R_rind i)) = some r ∧
          b.shears.get ⟨i, hi⟩ = r.shear) ∧
      b.shear_cov.a11 =
        ((b.shears.map fun s => (b.base.shear.x1 - s.x1) ^ 2).sum) / ((nboot : ℚ) - 1) ∧
      b.shear_cov.a22 =
        ((b.shears.map fun s => (b.base.shear.x2 - s.x2) ^ 2).sum) / ((nboot : ℚ) - 1) ∧
      b.shear_cov.a12 =
        ((b.shears.map fun s => (b.base.shear.x1 - s.x1) * (b.base.shear.x2 - s.x2)).sum)
          / ((nboot : ℚ) - 1) ∧
      b.shear_cov.a21 = b.shear_cov.a12 ∧
      bootstrap_shear_err b = (Real.sqrt b.shear_cov.a11, Real.sqrt b.shear_cov.a22) := by
  intro g gpsf R Rpsf nboot g_rind R_rind b h
  obtain ⟨res, shears, hres, hloop, hn1, hb⟩ := bootstrap_shear_some h
  subst hb
  have hlen : shears.length = nboot := by
    rw [optMap_length hloop, List.length_range]
  refine ⟨hres, hlen, ?_, ?_, ?_, ?_, rfl, rfl⟩
  · intro i hi
    have hi2 : i < (List.range nboot).length := by
      rw [List.length_range, ← hlen]
      exact hi
    have hterm := optMap_get hloop i hi2 hi
    rw [List.get_range] at hterm
    simp only [bootstrap_term] at hterm
    rcases Option.map_eq_some'.mp hterm with ⟨r, hr, hsh⟩
    exact ⟨r, hr, hsh.symm⟩
  · show (covFromShears _ _ _).a11 = _
    simp only [covFromShears]
    rw [one_div, inv_mul_eq_div]
  · show (covFromShears _ _ _).a22 = _
    simp only [covFromShears]
    rw [one_div, inv_mul_eq_div]
  · show (covFromShears _ _ _).a12 = _
    simp only [covFromShears]
    rw [one_div, inv_mul_eq_div]

/-- Witness for C3: the amended statement applied to a one-object ensemble
with two bootstrap iterations. -/
theorem C3_witness :
    ∃ b, bootstrap_shear [⟨0, 0⟩] [⟨0, 0⟩] [⟨1, 0, 0, 1⟩] [⟨0, 0⟩] 2
        (fun _ => [0]) (fun _ => [0]) = some b ∧
      get_mean_shear [⟨0, 0⟩] [⟨0, 0⟩] [⟨1, 0, 0, 1⟩] [⟨0, 0⟩] = some b.base ∧
      b.shears.length = 2 ∧
      b.shear_cov.a11 =
        ((b.shears.map fun s => (b.base.shear.x1 - s.x1) ^ 2).sum) / ((2 : ℚ) - 1) := by
  have hrange : List.range 2 = [0, 1] := by decide
  have hs : (bootstrap_shear [⟨0, 0⟩] [⟨0, 0⟩] [⟨1, 0, 0, 1⟩] [⟨0, 0⟩] 2
      (fun _ => [0]) (fun _ => [0])).isSome = true := by
    norm_num [bootstrap_shear, bootstrap_term, get_mean_shear, resampleV, resampleM,
      optMap, hrange, vsum_cons, vsum_nil, msum_cons, msum_nil, qvar, qmean, inv2, det2,
      matVec, vscale, mscale, covFromShears, vmean, List.getD,
      vec2_sub_mk, vec2_add_mk, vec2_zero_mk, mat2_sub_mk, mat2_add_mk, mat2_zero_mk,
      Vec2.zero_x1, Vec2.zero_x2]
  have h := (Option.some_get hs).symm
  obtain ⟨h1, h2, _, h4, _⟩ := C3_amended_bootstrap _ _ _ _ _ _ _ _ h
  exact ⟨_, h, h1, h2, by exact_mod_cast h4⟩

/-- Claim C4: in both modes, `get_target_psf` applies exactly one dilation, to
the pixel-deconvolved PSF model, with factor `1 + 2*max(|g1|, |g2|)` of
the requested shear; for shear `(0,0)` in gal_shear mode the factor is
exactly `1`. -/
theorem C4_dilation_factor :
    ∀ (m : Metacal) (sh : Shape) (mode : PsfTargetMode),
      m.gs_psf_int_nopix =
        GSProfile.convolve (.interpolatedImage m.psfObs.image)
          (.deconvolve (.pixel m.pixel_scale)) ∧
      dilations (get_target_psf m sh mode).2 =
        [(m.gs_psf_int_nopix, 1 + 2 * max |sh.g1| |sh.g2|)] ∧
      dilations (get_target_psf m ⟨0, 0⟩ PsfTargetMode.galShear).2 =
        [(m.gs_psf_int_nopix, 1)] := by
  intro m sh mode
  refine ⟨rfl, ?_, ?_⟩
  · cases mode <;>
      simp [get_target_psf, dilations, Metacal.gs_psf_int_nopix, Metacal.gs_psf_int,
        Metacal.pixel_inv, Metacal.pixelProf]
  · norm_num [get_target_psf, dilations, Metacal.gs_psf_int_nopix, Metacal.gs_psf_int,
      Metacal.pixel_inv, Metacal.pixelProf]

/-- Claim C5: in psf_shear mode the requested shear is applied once, to the
dilated PSF after it has been reconvolved with the pixel kernel (the
subtree under the shear contains no other shear, so the pre-pixel model is
never sheared); in gal_shear mode the target PSF contains no shear at
all. -/
theorem C5_psf_shear_after_pixel :
    ∀ (m : Metacal) (sh : Shape),
      (get_target_psf m sh PsfTargetMode.psfShear).2 =
        GSProfile.shearProf
          (.convolve (.dilate m.gs_psf_int_nopix (1 + 2 * max |sh.g1| |sh.g2|)) m.pixelProf)
          sh.g1 sh.g2 ∧
      shearsOf (GSProfile.convolve
          (.dilate m.gs_psf_int_nopix (1 + 2 * max |sh.g1| |sh.g2|)) m.pixelProf) = [] ∧
      shearsOf (get_target_psf m sh PsfTargetMode.galShear).2 = [] := by
  intro m sh
  refine ⟨rfl, ?_, ?_⟩
  · simp [shearsOf, Metacal.gs_psf_int_nopix, Metacal.gs_psf_int, Metacal.pixel_inv,
      Metacal.pixelProf]
  · simp [get_target_psf, shearsOf, Metacal.gs_psf_int_nopix, Metacal.gs_psf_int,
      Metacal.pixel_inv, Metacal.pixelProf]

/-- Uniqueness of the base-10 integer logarithm from a power sandwich. -/
theorem int_log_eq {r : ℚ} {n : ℤ} (hr : 0 < r) (h1 : (10 : ℚ) ^ n ≤ r)
    (h2 : r < (10 : ℚ) ^ (n + 1)) : Int.log 10 r = n := by
  have l1 : n ≤ Int.log 10 r := (Int.zpow_le_iff_le_log (by norm_num) hr).mp h1
  have l2 : Int.log 10 r < n + 1 := (Int.lt_zpow_iff_log_lt (by norm_num) hr).mp h2
  omega

/-- Python-2 `str` renders `4/3` with 12 significant digits. -/
theorem strKey12_four_thirds : strKey12 (4/3) = 133333333333/100000000000 := by
  have hlog : Int.log 10 |(4/3 : ℚ)| = 0 := by
    rw [show |(4/3 : ℚ)| = 4/3 from by norm_num]
    exact int_log_eq (by norm_num) (by norm_num) (by norm_num)
  rw [strKey12]
  simp only [if_neg (by norm_num : ¬ (4/3 : ℚ) = 0), hlog]
  rw [show ((0 : ℤ) - 11) = (-11 : ℤ) from by norm_num]
  rw [show ((10 : ℚ) ^ (-11 : ℤ)) = (100000000000 : ℚ)⁻¹ from by
    rw [zpow_neg]
    norm_num]
  rw [show |(4/3 : ℚ)| = 4/3 from by norm_num, round_eq]
  norm_num

/-- The 12-digit value `1.33333333333` renders as itself. -/
theorem strKey12_fixed12 : strKey12 (133333333333/100000000000) = 133333333333/100000000000 := by
  have hlog : Int.log 10 |(133333333333/100000000000 : ℚ)| = 0 := by
    rw [show |(133333333333/100000000000 : ℚ)| = 133333333333/100000000000 from by norm_num]
    exact int_log_eq (by norm_num) (by norm_num) (by norm_num)
  rw [strKey12]
  simp only [if_neg (by norm_num : ¬ (133333333333/100000000000 : ℚ) = 0), hlog]
  rw [show ((0 : ℤ) - 11) = (-11 : ℤ) from by norm_num]
  rw [show ((10 : ℚ) ^ (-11 : ℤ)) = (100000000000 : ℚ)⁻¹ from by
    rw [zpow_neg]
    norm_num]
  rw [show |(133333333333/100000000000 : ℚ)| = 133333333333/100000000000 from by norm_num,
    round_eq]
  norm_num

/-- Counterexample for C6: two requests differing in one key component do
NOT always use distinct cache keys.  The key components are formatted with
Python-2 `str` (12 significant digits), so the shear components `4/3` and
`1.33333333333`, which differ, render identically and collide onto one
key.  (Every float64 is such a rational; the same collision occurs for
the float64 values of `4.0/3.0` and `float("1.33333333333")`.) -/
theorem C6_key_collision :
    get_symmetrize_key (4/3) 0 0 0 2 2 =
      get_symmetrize_key (133333333333/100000000000) 0 0 0 2 2 ∧
    (4/3 : ℚ) ≠ 133333333333/100000000000 := by
  constructor
  · rw [get_symmetrize_key, get_symmetrize_key, strKey12_four_thirds, strKey12_fixed12]
  · norm_num

/-- Claim C6 amended: two symmetrization requests share a cache key exactly
when their six key components render identically under Python-2 `str`
(exact for the integer grid sizes, 12 significant digits for the float
shear components — so identical components always share a key, but
distinct float components agreeing to 12 significant digits collide);
whenever the key is present in the cache, the request adds the identical
cached noise-difference field, deterministically across instances and
calls, and the cache is left unchanged, so existing entries are retained
for the process lifetime and never invalidated; a request whose key is
absent fails (the miss branch raises `NameError` on the unbound `galsim`)
and stores nothing. -/
theorem C6_sym_cache :
    (∀ (m1 m2 : Metacal) (c : SymCache) (ty : SymType) (sh : Option Shape)
        (img1 img2 : GSImage) (p1 p2 : GSProfile) (d : NDArray),
        img2.dims = img1.dims →
        cacheLookup c (symKeyOf ty sh img1) = some d →
        symmetrize_noise m1 c ty img1 p1 sh = some (.plusNoise img1 d, c) ∧
        symmetrize_noise m2 c ty img2 p2 sh = some (.plusNoise img2 d, c)) ∧
    (∀ (m : Metacal) (c : SymCache) (ty : SymType) (sh : Option Shape)
        (img : GSImage) (p : GSProfile),
        cacheLookup c (symKeyOf ty sh img) = none →
        symmetrize_noise m c ty img p sh = none) ∧
    (∀ (g1 g2 g1p g2p : ℚ) (r c0 : ℕ) (h1 h2 h3 h4 : ℚ) (r2 c2 : ℕ),
        get_symmetrize_key g1 g2 g1p g2p r c0 = get_symmetrize_key h1 h2 h3 h4 r2 c2 ↔
          (r = r2 ∧ c0 = c2 ∧ strKey12 g1 = strKey12 h1 ∧ strKey12 g2 = strKey12 h2 ∧
            strKey12 g1p = strKey12 h3 ∧ strKey12 g2p = strKey12 h4)) ∧
    (∀ (m : Metacal) (c : SymCache) (ty : SymType) (sh : Option Shape) (img : GSImage)
        (p : GSProfile) (out : GSImage) (c2 : SymCache),
        symmetrize_noise m c ty img p sh = some (out, c2) → c2 = c) := by
  refine ⟨?_, ?_, ?_, ?_⟩
  · intro m1 m2 c ty sh img1 img2 p1 p2 d hdims hfound
    rcases hdim1 : img1.dims with ⟨nr, nc⟩
    rcases hshapes : get_symmetrize_shapes ty sh with ⟨a, b, a2, b2⟩
    have hkey : symKeyOf ty sh img1 = get_symmetrize_key a b a2 b2 nr nc := by
      simp [symKeyOf, hshapes, hdim1]
    rw [hkey] at hfound
    constructor
    · simp only [symmetrize_noise, hdim1, hshapes, hfound]
    · have hdim2 : img2.dims = (nr, nc) := by rw [hdims, hdim1]
      simp only [symmetrize_noise, hdim2, hshapes, hfound]
  · intro m c ty sh img p hmiss
    rcases hdim : img.dims with ⟨nr, nc⟩
    rcases hshapes : get_symmetrize_shapes ty sh with ⟨a, b, a2, b2⟩
    have hkey : symKeyOf ty sh img = get_symmetrize_key a b a2 b2 nr nc := by
      simp [symKeyOf, hshapes, hdim]
    rw [hkey] at hmiss
    simp only [symmetrize_noise, hdim, hshapes, hmiss]
  · intro g1 g2 g1p g2p r c0 h1 h2 h3 h4 r2 c2
    simp [get_symmetrize_key]
  · intro m c ty sh img p out c2 h
    rcases hdim : img.dims with ⟨nr, nc⟩
    rcases hshapes : get_symmetrize_shapes ty sh with ⟨a, b, a2, b2⟩
    simp only [symmetrize_noise, hdim, hshapes] at h
    split at h
    · simp only [Option.some.injEq, Prod.mk.injEq] at h
      exact h.2.symm
    · exact Option.noConfusion h

/-- Witness for C6: on a concrete cache holding the zero-shear key, the
request adds exactly the stored field and leaves the cache unchanged,
while the same request against an empty cache fails. -/
theorem C6_witness :
    symmetrize_noise mcExSym [(symKeyOf SymType.gal (some ⟨0, 0⟩) imgEx, nzEx3)]
        SymType.gal imgEx (.pixel 1) (some ⟨0, 0⟩) =
      some (.plusNoise imgEx nzEx3,
        [(symKeyOf SymType.gal (some ⟨0, 0⟩) imgEx, nzEx3)]) ∧
    symmetrize_noise mcExSym [] SymType.gal imgEx (.pixel 1) (some ⟨0, 0⟩) = none :=
  ⟨(C6_sym_cache.1 mcExSym mcExSym
      [(symKeyOf SymType.gal (some ⟨0, 0⟩) imgEx, nzEx3)] SymType.gal (some ⟨0, 0⟩)
      imgEx imgEx (.pixel 1) (.pixel 1) nzEx3 rfl rfl).1,
    C6_sym_cache.2.1 mcExSym [] SymType.gal (some ⟨0, 0⟩) imgEx (.pixel 1) rfl⟩

/-- Claim C7 (code bug): `get_obs_galshear` calls `_symmetrize_noise` on
the unsheared control image without any `if self.symmetrize` guard (unlike
`get_obs_dilated_only` and `get_obs_psfshear`), and `_symmetrize_noise`
itself raises `NameError` on every cache miss (unbound `galsim`).  On the
faithful model: with symmetrization off the sheared-only path stays
unsymmetrized, but requesting `get_unsheared` reaches `_symmetrize_noise`
anyway — failing on a miss, and on a cache hit silently returning the
control image with the cached symmetrization correction added; with
symmetrization on, the call fails on a miss instead of symmetrizing, and
on hits both images do come back symmetrized under the gal-type keys. -/
theorem C7_unsheared_symmetrize_gating :
    metacal_init obsEx 1 false false false = some mcExNoSym ∧
    mcExNoSym.symmetrize = false ∧
    ((get_obs_galshear mcExNoSym [] ⟨1, 0⟩ false nzEx1 nzEx2).map
        (fun rc => rc.1.1.image)) =
      some (get_target_image mcExNoSym
        (get_target_psf mcExNoSym ⟨1, 0⟩ PsfTargetMode.galShear).2 (some ⟨1, 0⟩) nzEx1) ∧
    get_obs_galshear mcExNoSym [] ⟨1, 0⟩ true nzEx1 nzEx2 = none ∧
    ((get_obs_galshear mcExNoSym
        [(symKeyOf SymType.gal (some ⟨0, 0⟩)
            (get_target_image mcExNoSym
              (get_target_psf mcExNoSym ⟨1, 0⟩ PsfTargetMode.galShear).2 none nzEx2),
          nzEx4)] ⟨1, 0⟩ true nzEx1 nzEx2).map
        (fun rc => rc.1.2.map (fun ob => ob.image))) =
      some (some (.plusNoise
        (get_target_image mcExNoSym
          (get_target_psf mcExNoSym ⟨1, 0⟩ PsfTargetMode.galShear).2 none nzEx2) nzEx4)) ∧
    mcExSym.symmetrize = true ∧
    get_obs_galshear mcExSym [] ⟨0, 0⟩ false nzEx1 nzEx2 = none ∧
    ((get_obs_galshear mcExSym
        [(symKeyOf SymType.gal (some ⟨0, 0⟩)
            (get_target_image mcExSym
              (get_target_psf mcExSym ⟨0, 0⟩ PsfTargetMode.galShear).2 none nzEx2),
          nzEx4)] ⟨0, 0⟩ true nzEx1 nzEx2).map
        (fun rc => (rc.1.1.image, rc.1.2.map (fun ob => ob.image)))) =
      some
        (.plusNoise (get_target_image mcExSym
          (get_target_psf mcExSym ⟨0, 0⟩ PsfTargetMode.galShear).2 (some ⟨0, 0⟩) nzEx1) nzEx4,
         some (.plusNoise (get_target_image mcExSym
           (get_target_psf mcExSym ⟨0, 0⟩ PsfTargetMode.galShear).2 none nzEx2) nzEx4)) := by
  refine ⟨rfl, rfl, rfl, rfl, rfl, rfl, rfl, ?_⟩
  rfl

theorem Observation.image_mk (i w : NDArray) (b o n : Option NDArray)
    (p : Option Observation) : (Observation.mk i w b o n p).image = i := rfl

theorem Observation.weight_mk (i w : NDArray) (b o n : Option NDArray)
    (p : Option Observation) : (Observation.mk i w b o n p).weight = w := rfl

theorem Observation.bmask_mk (i w : NDArray) (b o n : Option NDArray)
    (p : Option Observation) : (Observation.mk i w b o n p).bmask = b := rfl

theorem Observation.ormask_mk (i w : NDArray) (b o n : Option NDArray)
    (p : Option Observation) : (Observation.mk i w b o n p).ormask = o := rfl

theorem Observation.noise_mk (i w : NDArray) (b o n : Option NDArray)
    (p : Option Observation) : (Observation.mk i w b o n p).noise = n := rfl

theorem onesLike_shape (a : NDArray) : (onesLike a).shape = a.shape := rfl

/-- Each checked setter preserves the image's shape and the shape
invariant. -/
theorem applyObsOp_preserves {o o2 : Observation} {op : ObsOp}
    (h : applyObsOp o op = some o2) :
    o2.image.shape = o.image.shape ∧ (shapesOk o → shapesOk o2) := by
  cases o with
  | mk i w b orm n p =>
    cases op with
    | opSetImage a =>
        simp only [applyObsOp, set_image, Observation.image_mk] at h
        split at h
        · cases h
          next heq =>
            refine ⟨heq, fun hs => ?_⟩
            obtain ⟨h1, h2, h3, h4⟩ := hs
            exact ⟨by rw [Observation.weight_mk, Observation.image_mk, heq]; exact h1,
              fun x hx => by rw [Observation.image_mk, heq]; exact h2 x hx,
              fun x hx => by rw [Observation.image_mk, heq]; exact h3 x hx,
              fun x hx => by rw [Observation.image_mk, heq]; exact h4 x hx⟩
        · exact Option.noConfusion h
    | opSetWeight a =>
        cases a with
        | none =>
            simp only [applyObsOp, set_weight] at h
            cases h
            refine ⟨rfl, fun hs => ?_⟩
            obtain ⟨h1, h2, h3, h4⟩ := hs
            exact ⟨onesLike_shape _, h2, h3, h4⟩
        | some aw =>
            simp only [applyObsOp, set_weight, Observation.image_mk] at h
            split at h
            · cases h
              next heq =>
                refine ⟨rfl, fun hs => ?_⟩
                obtain ⟨h1, h2, h3, h4⟩ := hs
                exact ⟨heq, h2, h3, h4⟩
            · exact Option.noConfusion h
    | opSetBmask a =>
        cases a with
        | none =>
            simp only [applyObsOp, set_bmask] at h
            cases h
            refine ⟨rfl, fun hs => ?_⟩
            obtain ⟨h1, h2, h3, h4⟩ := hs
            exact ⟨h1, by simp [Observation.bmask_mk], h3, h4⟩
        | some ab =>
            simp only [applyObsOp, set_bmask, Observation.image_mk] at h
            split at h
            · cases h
              next heq =>
                refine ⟨rfl, fun hs => ?_⟩
                obtain ⟨h1, h2, h3, h4⟩ := hs
                exact ⟨h1, fun x hx => by
                  rw [Observation.bmask_mk] at hx
                  cases hx
                  exact heq, h3, h4⟩
            · exact Option.noConfusion h
    | opSetOrmask a =>
        cases a with
        | none =>
            simp only [applyObsOp, set_ormask] at h
            cases h
            refine ⟨rfl, fun hs => ?_⟩
            obtain ⟨h1, h2, h3, h4⟩ := hs
            exact ⟨h1, h2, by simp [Observation.ormask_mk], h4⟩
        | some ab =>
            simp only [applyObsOp, set_ormask, Observation.image_mk] at h
            split at h
            · cases h
              next heq =>
                refine ⟨rfl, fun hs => ?_⟩
                obtain ⟨h1, h2, h3, h4⟩ := hs
                exact ⟨h1, h2, fun x hx => by
                  rw [Observation.ormask_mk] at hx
                  cases hx
                  exact heq, h4⟩
            · exact Option.noConfusion h
    | opSetNoise a =>
        cases a with
        | none =>
            simp only [applyObsOp, set_noise] at h
            cases h
            refine ⟨rfl, fun hs => ?_⟩
            obtain ⟨h1, h2, h3, h4⟩ := hs
            exact ⟨h1, h2, h3, by simp [Observation.noise_mk]⟩
        | some ab =>
            simp only [applyObsOp, set_noise, Observation.image_mk] at h
            split at h
            · cases h
              next heq =>
                refine ⟨rfl, fun hs => ?_⟩
                obtain ⟨h1, h2, h3, h4⟩ := hs
                exact ⟨h1, h2, h3, fun x hx => by
                  rw [Observation.noise_mk] at hx
                  cases hx
                  exact heq⟩
            · exact Option.noConfusion h

/-- A sequence of checked setters preserves the image's shape and the
shape invariant. -/
theorem applyObsOps_preserves {o : Observation} {ops : List ObsOp} {o2 : Observation}
    (h : applyObsOps o ops = some o2) :
    o2.image.shape = o.image.shape ∧ (shapesOk o → shapesOk o2) := by
  induction ops generalizing o with
  | nil =>
      simp only [applyObsOps] at h
      cases h
      exact ⟨rfl, id⟩
  | cons op rest ih =>
      simp only [applyObsOps] at h
      rcases Option.bind_eq_some.mp h with ⟨omid, hop, hrest⟩
      obtain ⟨h1, h2⟩ := applyObsOp_preserves hop
      obtain ⟨h3, h4⟩ := ih hrest
      exact ⟨h3.trans h1, fun hs => h4 (h2 hs)⟩

/-- The constructor establishes the invariant. -/
theorem observation_init_preserves {image : NDArray}
    {weight bmask ormask noise : Option NDArray} {psf : Option Observation}
    {o0 : Observation}
    (h : observation_init image weight bmask ormask noise psf = some o0) :
    o0.image.shape = image.shape ∧ shapesOk o0 := by
  simp only [observation_init] at h
  rcases Option.bind_eq_some.mp h with ⟨o1, h1, h⟩
  rcases Option.bind_eq_some.mp h with ⟨o2, h2, h⟩
  rcases Option.bind_eq_some.mp h with ⟨o3, h3, h⟩
  rcases Option.map_eq_some'.mp h with ⟨o4, h4, rfl⟩
  have hbase : shapesOk (Observation.mk image (onesLike image) none none none none) :=
    ⟨onesLike_shape _, by simp [Observation.bmask_mk], by simp [Observation.ormask_mk],
      by simp [Observation.noise_mk]⟩
  obtain ⟨e1, p1⟩ := @applyObsOp_preserves _ _ (ObsOp.opSetWeight weight) h1
  obtain ⟨e2, p2⟩ := @applyObsOp_preserves _ _ (ObsOp.opSetBmask bmask) h2
  obtain ⟨e3, p3⟩ := @applyObsOp_preserves _ _ (ObsOp.opSetOrmask ormask) h3
  obtain ⟨e4, p4⟩ := @applyObsOp_preserves _ _ (ObsOp.opSetNoise noise) h4
  have himg : o4.image.shape = image.shape := by
    rw [e4, e3, e2, e1]
    rfl
  have hok : shapesOk o4 := p4 (p3 (p2 (p1 hbase)))
  cases o4 with
  | mk i w b orm n p =>
      exact ⟨himg, hok.1, hok.2.1, hok.2.2.1, hok.2.2.2⟩

/-- Claim C10: the image shape is fixed at construction — `set_image` and every
per-pixel setter reject an array whose shape differs from the current
image's, and after construction plus any sequence of setter operations
all per-pixel arrays still share the construction-time shape. -/
theorem C10_shape_invariant :
    (∀ (o : Observation) (a : NDArray), a.shape ≠ o.image.shape →
      set_image o a = none ∧ set_weight o (some a) = none ∧
      set_bmask o (some a) = none ∧ set_ormask o (some a) = none ∧
      set_noise o (some a) = none) ∧
    (∀ (image : NDArray) (weight bmask ormask noise : Option NDArray)
        (psf : Option Observation) (o0 : Observation),
      observation_init image weight bmask ormask noise psf = some o0 →
      o0.image.shape = image.shape ∧ shapesOk o0 ∧
      ∀ (ops : List ObsOp) (o2 : Observation), applyObsOps o0 ops = some o2 →
        o2.image.shape = image.shape ∧ shapesOk o2) := by
  constructor
  · intro o a ha
    exact ⟨by simp [set_image, ha], by simp [set_weight, ha], by simp [set_bmask, ha],
      by simp [set_ormask, ha], by simp [set_noise, ha]⟩
  · intro image weight bmask ormask noise psf o0 h
    obtain ⟨hshape, hok⟩ := observation_init_preserves h
    refine ⟨hshape, hok, fun ops o2 hops => ?_⟩
    obtain ⟨h1, h2⟩ := applyObsOps_preserves hops
    exact ⟨h1.trans hshape, h2 hok⟩

/-- Witness for C10: a concrete construction followed by a bitmask set and an
image reset of the same shape, plus a rejected mismatched image. -/
theorem C10_witness :
    (set_image (Observation.mk ⟨2, 3, List.replicate 6 0⟩ ⟨2, 3, List.replicate 6 1⟩
        none none none none) ⟨1, 1, [0]⟩ = none) ∧
    ∃ o2, applyObsOps (Observation.mk ⟨2, 3, List.replicate 6 0⟩ ⟨2, 3, List.replicate 6 1⟩
        none none none none)
        [.opSetBmask (some ⟨2, 3, List.replicate 6 0⟩),
         .opSetImage ⟨2, 3, List.replicate 6 2⟩] = some o2 ∧
      o2.image.shape = (2, 3) ∧ shapesOk o2 := by
  have hinit : observation_init ⟨2, 3, List.replicate 6 0⟩ none none none none none =
      some (Observation.mk ⟨2, 3, List.replicate 6 0⟩ ⟨2, 3, List.replicate 6 1⟩
        none none none none) := rfl
  have hops : applyObsOps (Observation.mk ⟨2, 3, List.replicate 6 0⟩
      ⟨2, 3, List.replicate 6 1⟩ none none none none)
      [.opSetBmask (some ⟨2, 3, List.replicate 6 0⟩),
       .opSetImage ⟨2, 3, List.replicate 6 2⟩] =
      some (Observation.mk ⟨2, 3, List.replicate 6 2⟩ ⟨2, 3, List.replicate 6 1⟩
        (some ⟨2, 3, List.replicate 6 0⟩) none none none) := rfl
  obtain ⟨hsh, hok, hrest⟩ := C10_shape_invariant.2 _ none none none none none _ hinit
  obtain ⟨h1, h2⟩ := hrest _ _ hops
  exact ⟨(C10_shape_invariant.1 _ ⟨1, 1, [0]⟩ (by decide)).1, _, hops, h1, h2⟩

end Ngmix

















